import Mathlib

/-!
# cxlib `net`: stream helpers and socket handles

A shallow embedding of `src/net/stream.cpp` (`Reader::ReadFull`,
`Reader::ReadLine`, `Writer::WriteFull`), of the socket handles and of
`ConnectTCP` and `ListenTCP` of `src/netlib/tcp_unix.cpp`, of the socket
handle and `ListenUDP` of `src/netlib/udp_windows.cpp` (with
`src/netlib/udp.h`), and of `TCPListener::Accept` of
`netlib/src/net/tcp_windows.cpp`.

Conventions of the embedding

* `size_t` values are natural numbers below `SIZE_MOD = 2^64`; additions and
  subtractions on them are written `size_add` / `size_sub` and wrap.
* A `char*` argument is an `Option Buf`: `none` is `nullptr`, `some m` is the
  memory the pointer refers to, indexed from the pointer (index `i` is
  `buf[i]`).  The memory is unbounded, so a store past the caller's capacity
  is visible as a change at an index at or beyond that capacity.
* `assert(0 && "...")` is compiled out (`NDEBUG`): the statement after it, the
  `return`, is what the embedding models.
* The operating system and the pure-virtual `Read` / `Write` are the
  environment: they are arguments of the embedded functions.  Every call into
  the operating system is appended to a trace, so that "no call is made" is
  "the trace is unchanged".
-/

namespace net

/-! ## Errors -/

/-- Modelled from the spec: the header `error.h` is not among the sources.
The error kinds are those of the data model; `error::wrap(etype::os, code)`
is `error.os code`. -/
inductive error where
  | nil
  | illegal_argument
  | illegal_state
  | eof
  | timedout
  | os (code : Int)
  | no_memory
  | io
  deriving DecidableEq, Repr

/-! ## Machine sizes and memory -/

/-- Number of values of a `size_t` (64-bit targets). -/
def SIZE_MOD : Nat := 18446744073709551616

/-- Addition on `size_t`. -/
def size_add (a b : Nat) : Nat := (a + b) % SIZE_MOD

/-- Subtraction on `size_t`. -/
def size_sub (a b : Nat) : Nat := (a + SIZE_MOD - b % SIZE_MOD) % SIZE_MOD

/-- Memory reachable from a `char*`, indexed from the pointer. -/
abbrev Buf := Nat → UInt8

/-- Effect of a callee storing `data` at `&buf[pos]`. -/
def Buf.store (m : Buf) (pos : Nat) (data : List UInt8) : Buf :=
  fun i => if pos ≤ i ∧ i < pos + data.length then data.getD (i - pos) 0 else m i

/-- Effect of `buf[i] = b`. -/
def Buf.set (m : Buf) (i : Nat) (b : UInt8) : Buf :=
  fun j => if j = i then b else m j

/-- The bytes `buf[pos], ..., buf[pos + n - 1]`. -/
def Buf.load (m : Buf) (pos n : Nat) : List UInt8 :=
  (List.range n).map (fun i => m (pos + i))

/-! ## `net/stream.cpp` -/

/-- What one call of the pure-virtual `Read(buf, len, &nbytes)` does: the
error it returns, the bytes it stored at `buf`, and the state of the
transport afterwards.  The value it stores in `nbytes` is the number of
these bytes, as in `TCPSocket::Read` and `UDPSocket::Read`, which store the
positive return value of `recv`. -/
structure ReadResult (σ : Type) where
  err : error
  data : List UInt8
  st : σ

/-- An implementation of the abstract class `Reader`: `Read st len`. -/
structure Reader (σ : Type) where
  Read : σ → Nat → ReadResult σ

/-- What one call of the pure-virtual `Write(buf, len, &nbytes)` does. -/
structure WriteResult (σ : Type) where
  err : error
  nbytes : Nat
  st : σ

/-- An implementation of the abstract class `Writer`: `Write st bytes`, where
`bytes` are the `len` bytes at the pointer passed. -/
structure Writer (σ : Type) where
  Write : σ → List UInt8 → WriteResult σ

/-- Result of `ReadFull` / `ReadLine`: returned error, transport state and
the caller's memory afterwards. -/
structure StreamResult (σ : Type) where
  err : error
  st : σ
  buf : Option Buf

/-- Result of `WriteFull`. -/
structure WriteFullResult (σ : Type) where
  err : error
  st : σ

/-- The `while (true)` loop of `Reader::ReadFull` (stream.cpp:14-23); `none`
when the loop has not returned within `fuel` iterations. -/
def ReadFullLoop {σ : Type} (R : Reader σ) (len : Nat) :
    Nat → σ → Buf → Nat → Option (StreamResult σ)
  | 0, _, _, _ => none
  | fuel + 1, s, buf, offset =>
    let r := R.Read s (size_sub len offset)
    let buf1 := buf.store offset r.data
    if r.err ≠ error.nil then
      some ⟨r.err, r.st, some buf1⟩
    else
      let offset1 := size_add offset r.data.length
      if offset1 ≥ len then
        some ⟨error.nil, r.st, some buf1⟩
      else
        ReadFullLoop R len fuel r.st buf1 offset1

/-- `Reader::ReadFull(buf, len)` (stream.cpp:6-24). -/
def ReadFull {σ : Type} (R : Reader σ) (fuel : Nat) (s : σ) (buf : Option Buf) (len : Nat) :
    Option (StreamResult σ) :=
  match buf with
  | none => some ⟨error.illegal_argument, s, none⟩
  | some m => ReadFullLoop R len fuel s m 0

/-- The `while (true)` loop of `Reader::ReadLine` (stream.cpp:34-48). -/
def ReadLineLoop {σ : Type} (R : Reader σ) (len : Nat) :
    Nat → σ → Buf → Nat → Option (StreamResult σ)
  | 0, _, _, _ => none
  | fuel + 1, s, buf, offset =>
    let r := R.Read s 1
    let buf1 := buf.store offset r.data
    if r.err ≠ error.nil then
      some ⟨r.err, r.st, some buf1⟩
    else if buf1 offset = 10 then
      some ⟨error.nil, r.st, some (buf1.set (size_add offset 1) 0)⟩
    else
      let offset1 := size_add offset r.data.length
      if size_add offset1 1 ≥ len then
        some ⟨error.nil, r.st, some (buf1.set offset1 0)⟩
      else
        ReadLineLoop R len fuel r.st buf1 offset1

/-- `Reader::ReadLine(buf, len)` (stream.cpp:26-49). -/
def ReadLine {σ : Type} (R : Reader σ) (fuel : Nat) (s : σ) (buf : Option Buf) (len : Nat) :
    Option (StreamResult σ) :=
  match buf with
  | none => some ⟨error.illegal_argument, s, none⟩
  | some m => ReadLineLoop R len fuel s m 0

/-- The `while (true)` loop of `Writer::WriteFull` (stream.cpp:59-68). -/
def WriteFullLoop {σ : Type} (W : Writer σ) (buf : Buf) (len : Nat) :
    Nat → σ → Nat → Option (WriteFullResult σ)
  | 0, _, _ => none
  | fuel + 1, s, offset =>
    let r := W.Write s (buf.load offset (size_sub len offset))
    if r.err ≠ error.nil then
      some ⟨r.err, r.st⟩
    else
      let offset1 := size_add offset r.nbytes
      if offset1 ≥ len then
        some ⟨error.nil, r.st⟩
      else
        WriteFullLoop W buf len fuel r.st offset1

/-- `Writer::WriteFull(buf, len)` (stream.cpp:51-69). -/
def WriteFull {σ : Type} (W : Writer σ) (fuel : Nat) (s : σ) (buf : Option Buf) (len : Nat) :
    Option (WriteFullResult σ) :=
  match buf with
  | none => some ⟨error.illegal_argument, s⟩
  | some m => WriteFullLoop W m len fuel s 0

/-! ### The loops with a record of their iterations -/

/-- One iteration of the loop of `ReadFull` or `WriteFull`, as observed: the
value of `offset` when `Read` / `Write` is called (the call is given
`&buf[offset]`), the number of bytes it is asked for, and the value of
`offset` when the iteration ends (unchanged when the call fails, since the
loop returns before `offset += nbytes`). -/
structure LoopCall where
  offset : Nat
  req : Nat
  next : Nat
  deriving DecidableEq, Repr

/-- `ReadFullLoop` (stream.cpp:14-23) returning, next to its result, the
record of its iterations, oldest first. -/
def ReadFullLoopLog {σ : Type} (R : Reader σ) (len : Nat) :
    Nat → σ → Buf → Nat → Option (StreamResult σ × List LoopCall)
  | 0, _, _, _ => none
  | fuel + 1, s, buf, offset =>
    let r := R.Read s (size_sub len offset)
    let buf1 := buf.store offset r.data
    if r.err ≠ error.nil then
      some (⟨r.err, r.st, some buf1⟩, [⟨offset, size_sub len offset, offset⟩])
    else
      let offset1 := size_add offset r.data.length
      if offset1 ≥ len then
        some (⟨error.nil, r.st, some buf1⟩, [⟨offset, size_sub len offset, offset1⟩])
      else
        (ReadFullLoopLog R len fuel r.st buf1 offset1).map
          (fun p => (p.1, ⟨offset, size_sub len offset, offset1⟩ :: p.2))

/-- `WriteFullLoop` (stream.cpp:59-68) returning, next to its result, the
record of its iterations, oldest first. -/
def WriteFullLoopLog {σ : Type} (W : Writer σ) (buf : Buf) (len : Nat) :
    Nat → σ → Nat → Option (WriteFullResult σ × List LoopCall)
  | 0, _, _ => none
  | fuel + 1, s, offset =>
    let r := W.Write s (buf.load offset (size_sub len offset))
    if r.err ≠ error.nil then
      some (⟨r.err, r.st⟩, [⟨offset, size_sub len offset, offset⟩])
    else
      let offset1 := size_add offset r.nbytes
      if offset1 ≥ len then
        some (⟨error.nil, r.st⟩, [⟨offset, size_sub len offset, offset1⟩])
      else
        (WriteFullLoopLog W buf len fuel r.st offset1).map
          (fun p => (p.1, ⟨offset, size_sub len offset, offset1⟩ :: p.2))

/-- What the record of a loop started at `off` satisfies: it begins with a
call at `off`; every call is at an offset below `len`, asks for exactly
`len - offset` bytes and ends at an offset of at most `len`; every call but
the last moves the offset up, and the following call starts where it
ended. -/
def LoopRecordOk (len off : Nat) (log : List LoopCall) : Prop :=
  log.length ≤ len - off
  ∧ (∃ c rest, log = c :: rest ∧ c.offset = off)
  ∧ (∀ c ∈ log, c.offset < len ∧ c.req = len - c.offset ∧ c.offset ≤ c.next ∧ c.next ≤ len)
  ∧ List.Chain' (fun a b => a.offset < a.next ∧ b.offset = a.next) log

/-! ### Environments for the stream helpers -/

/-- State of a byte stream being read: the bytes not yet consumed and the
number of `Read` calls served. -/
structure StreamState where
  rest : List UInt8
  calls : Nat

/-- A byte stream delivered in fragments.  `frag i req` is the number of
bytes the `i`-th `Read` delivers when asked for `req`; a `Read` that has
nothing to deliver (exhausted stream, or a fragment of size 0) reports `eof`,
as `recv` returning 0 does. -/
def streamReader (frag : Nat → Nat → Nat) : Reader StreamState where
  Read st req :=
    let data := st.rest.take (frag st.calls req)
    if data = [] then
      ⟨error.eof, [], ⟨st.rest, st.calls + 1⟩⟩
    else
      ⟨error.nil, data, ⟨st.rest.drop data.length, st.calls + 1⟩⟩

/-- A stream that delivers exactly what is asked for, as long as it has it. -/
def wholeReader : Reader StreamState := streamReader (fun _ req => req)

/-- State of a scripted reader: the number of `Read` calls served. -/
structure ScriptState where
  calls : Nat
  deriving DecidableEq, Repr

/-- A reader driven by a sequence of outcomes: the `i`-th `Read` returns the
error and stores the bytes of `outs i`, whatever it is asked for. -/
def scriptReader (outs : Nat → error × List UInt8) : Reader ScriptState where
  Read st _ := ⟨(outs st.calls).1, (outs st.calls).2, ⟨st.calls + 1⟩⟩

/-- Number of bytes the first `k` outcomes of a script report. -/
def scriptBytes (outs : Nat → error × List UInt8) (k : Nat) : Nat :=
  ((List.range k).map (fun i => (outs i).2.length)).sum

/-- One served `Write` call: the byte range it accepted and the error it
returned. -/
structure WriteCall where
  accepted : List UInt8
  err : error
  deriving DecidableEq, Repr

/-- State of a recording writer: the calls served so far, oldest first. -/
structure SinkState where
  calls : List WriteCall
  deriving DecidableEq, Repr

/-- A writer that records what it accepts.  `out i req` is what the `i`-th
`Write` does when offered `req` bytes: the error it returns and, on success,
how many of the offered bytes it accepts. -/
def sinkWriter (out : Nat → Nat → error × Nat) : Writer SinkState where
  Write st bytes :=
    let o := out st.calls.length bytes.length
    if o.1 ≠ error.nil then
      ⟨o.1, 0, ⟨st.calls ++ [⟨[], o.1⟩]⟩⟩
    else
      ⟨error.nil, o.2, ⟨st.calls ++ [⟨bytes.take o.2, error.nil⟩]⟩⟩

/-- Concatenation of the byte ranges accepted by the recorded calls. -/
def SinkState.bytes (st : SinkState) : List UInt8 :=
  (st.calls.map WriteCall.accepted).flatten


/-! ## The operating system -/

/-- Socket options named in the sources. -/
inductive SockOpt where
  | SO_RCVTIMEO
  | SO_SNDTIMEO
  | SO_KEEPALIVE
  | SO_REUSEADDR
  | SO_ERROR
  | TCP_USER_TIMEOUT
  | TCP_KEEPIDLE
  | TCP_KEEPALIVE
  | TCP_KEEPINTVL
  deriving DecidableEq, Repr

/-- Socket types passed to `socket(AF_INET, type, 0)`. -/
inductive SockType where
  | SOCK_STREAM
  | SOCK_DGRAM
  deriving DecidableEq, Repr

/-- One call into the operating system, with the arguments the sources pass.
`close` stands for `close` and `closesocket`.  `sendto` and `connect` record
the destination as the string given to `inet_addr` and the port given to
`htons`.  `select` records `nfds`, which of the three descriptor sets are
passed (each holds the one descriptor) and the timeout.  `init` is the call
of `internal::init()`, `ioctl` is `ioctl(fd, FIONBIO, &mode)`, `bind` binds
to `INADDR_ANY` and the port given to `htons`, `listen` is
`listen(fd, SOMAXCONN)`. -/
inductive Syscall where
  | close (fd : Int)
  | recv (fd : Int) (len : Nat)
  | send (fd : Int) (bytes : List UInt8)
  | recvfrom (fd : Int) (len : Nat)
  | sendto (fd : Int) (bytes : List UInt8) (addr : String) (port : Nat)
  | setsockopt (fd : Int) (opt : SockOpt) (val : List Int)
  | getsockopt (fd : Int) (opt : SockOpt)
  | select (nfds : Int) (readfds writefds exceptfds : Bool) (tv_sec tv_usec : Int)
  | accept (fd : Int)
  | init
  | socket (type : SockType)
  | ioctl (fd : Int) (mode : Int)
  | connect (fd : Int) (addr : String) (port : Nat)
  | bind (fd : Int) (port : Nat)
  | listen (fd : Int)
  deriving DecidableEq, Repr

/-- What the operating system answers to one call: the return value, the
value of `errno` (`WSAGetLastError()`) afterwards, the bytes stored in a
receive buffer, the peer address as `inet_ntoa` prints it and the peer port
as `ntohs` returns it, and the option value stored by `getsockopt`. -/
structure SysRet where
  ret : Int
  errno : Int
  data : List UInt8
  addr : String
  port : Nat
  optval : Int
  deriving DecidableEq, Repr

/-- A behaviour of the operating system: the answer to a call, given the
number of calls made before it. -/
abbrev Kernel := Nat → Syscall → SysRet

/-- Result of a method: the error returned, the handle afterwards, the calls
made into the operating system so far (oldest first), and the output
parameters afterwards. -/
structure Ret (H O : Type) where
  err : error
  self : H
  os : List Syscall
  out : O
  deriving DecidableEq

/-- Two calls of a `Close` method in a row, the second on the handle and the
operating system the first one left: the error of the first call and the
whole result of the second. -/
def closeTwice {H : Type} (close : H → List Syscall → Ret H Unit) (h : H)
    (tr : List Syscall) : error × Ret H Unit :=
  ((close h tr).err, close (close h tr).self (close h tr).os)

/-- Preprocessor symbols the POSIX backend tests. -/
structure BuildConfig where
  has_TCP_USER_TIMEOUT : Bool
  has_TCP_KEEPIDLE : Bool
  has_TCP_KEEPALIVE : Bool
  has_TCP_KEEPINTVL : Bool
  deriving DecidableEq, Repr

/-- The fields of `struct timeval`. -/
structure timeval where
  tv_sec : Int
  tv_usec : Int
  deriving DecidableEq, Repr

/-- `toTimeval` (tcp_unix.cpp:20-24); `/` and `%` of C truncate. -/
def toTimeval (milliseconds : Int) : timeval :=
  let milliseconds := if milliseconds > 0 then milliseconds else 0
  ⟨Int.tdiv milliseconds 1000, Int.tmod milliseconds 1000 * 1000⟩

/-- `waitUntilReady` (tcp_unix.cpp:26-58).  The three flags say which of the
`fd_set` pointers are not null. -/
def waitUntilReady (k : Kernel) (tr : List Syscall) (fd : Int)
    (readfds writefds exceptfds : Bool) (timeoutMilliseconds : Int) : error × List Syscall :=
  let timeout := toTimeval timeoutMilliseconds
  let c := Syscall.select (fd + 1) readfds writefds exceptfds timeout.tv_sec timeout.tv_usec
  let result := (k tr.length c).ret
  let errno := (k tr.length c).errno
  let tr1 := tr ++ [c]
  if result = -1 then
    (error.os errno, tr1)
  else if result = 0 then
    (error.timedout, tr1)
  else
    let g := k tr1.length (Syscall.getsockopt fd SockOpt.SO_ERROR)
    let tr2 := tr1 ++ [Syscall.getsockopt fd SockOpt.SO_ERROR]
    let soErr := if g.ret = 0 then g.optval else 0
    if soErr ≠ 0 then
      (error.os soErr, tr2)
    else
      (error.nil, tr2)

/-- The `select` call `waitUntilReady` makes (tcp_unix.cpp:41-44). -/
def selectCall (fd : Int) (readfds writefds exceptfds : Bool) (timeoutMilliseconds : Int) :
    Syscall :=
  Syscall.select (fd + 1) readfds writefds exceptfds (toTimeval timeoutMilliseconds).tv_sec
    (toTimeval timeoutMilliseconds).tv_usec

/-- The value of `soErr` after `getsockopt(fd, SOL_SOCKET, SO_ERROR, &soErr, ...)`
answered `g` (tcp_unix.cpp:50-52): `soErr` starts as 0 and a failing
`getsockopt` stores nothing. -/
def soErrAfter (g : SysRet) : Int := if g.ret = 0 then g.optval else 0

/-! ## `netlib/tcp_unix.cpp` -/

/-- Modelled from the spec: the class declaration (`tcp.h`) is not among the
sources; the fields are those the methods of tcp_unix.cpp use. -/
structure TCPSocket where
  m_fd : Int
  m_remoteAddr : String
  m_remotePort : Nat
  m_closed : Bool
  m_timeoutMilliseconds : Int
  deriving DecidableEq, Repr

/-- Modelled from the spec: the constructor `TCPSocket(fd, addr, port)` of the
absent `tcp.h`; a new handle is open and has no timeout. -/
def TCPSocket.new (fd : Int) (addr : String) (port : Nat) : TCPSocket :=
  ⟨fd, addr, port, false, 0⟩

/-- Modelled from the spec: the class declaration (`tcp.h`) is not among the
sources; the fields are those the methods of tcp_unix.cpp use. -/
structure TCPListener where
  m_fd : Int
  m_closed : Bool
  m_timeoutMilliseconds : Int
  deriving DecidableEq, Repr

/-- `TCPSocket::Close` (tcp_unix.cpp:157-167). -/
def TCPSocket.Close (k : Kernel) (h : TCPSocket) (tr : List Syscall) : Ret TCPSocket Unit :=
  if h.m_closed then
    ⟨error.nil, h, tr, ()⟩
  else
    let r := k tr.length (Syscall.close h.m_fd)
    let tr1 := tr ++ [Syscall.close h.m_fd]
    if r.ret = -1 then
      ⟨error.os r.errno, h, tr1, ()⟩
    else
      ⟨error.nil, { h with m_closed := true }, tr1, ()⟩

/-- `TCPSocket::Read` (tcp_unix.cpp:169-186).  The outputs are the memory at
`buf` and the cell `nbytes` points to (`none` for a null pointer). -/
def TCPSocket.Read (k : Kernel) (h : TCPSocket) (tr : List Syscall) (buf : Buf) (len : Nat)
    (nbytes : Option Int) : Ret TCPSocket (Buf × Option Int) :=
  if h.m_closed then
    ⟨error.illegal_state, h, tr, (buf, nbytes)⟩
  else
    let r := k tr.length (Syscall.recv h.m_fd len)
    let tr1 := tr ++ [Syscall.recv h.m_fd len]
    let buf1 := buf.store 0 r.data
    let size := r.ret
    if size = -1 then
      ⟨error.os r.errno, h, tr1, (buf1, nbytes)⟩
    else if size = 0 then
      ⟨error.eof, h, tr1, (buf1, nbytes)⟩
    else
      ⟨error.nil, h, tr1, (buf1, nbytes.map (fun _ => size))⟩

/-- `TCPSocket::Write` (tcp_unix.cpp:188-202). -/
def TCPSocket.Write (k : Kernel) (h : TCPSocket) (tr : List Syscall) (buf : Buf) (len : Nat)
    (nbytes : Option Int) : Ret TCPSocket (Option Int) :=
  if h.m_closed then
    ⟨error.illegal_state, h, tr, nbytes⟩
  else
    let r := k tr.length (Syscall.send h.m_fd (buf.load 0 len))
    let tr1 := tr ++ [Syscall.send h.m_fd (buf.load 0 len)]
    let size := r.ret
    if size = -1 then
      ⟨error.os r.errno, h, tr1, nbytes⟩
    else
      ⟨error.nil, h, tr1, nbytes.map (fun _ => size)⟩

/-- `TCPSocket::SetTimeout` (tcp_unix.cpp:204-228). -/
def TCPSocket.SetTimeout (cfg : BuildConfig) (k : Kernel) (h : TCPSocket) (tr : List Syscall)
    (timeoutMilliseconds : Int) : Ret TCPSocket Unit :=
  if h.m_closed then
    ⟨error.illegal_state, h, tr, ()⟩
  else
    let soTimeout := toTimeval timeoutMilliseconds
    let c1 := Syscall.setsockopt h.m_fd SockOpt.SO_RCVTIMEO [soTimeout.tv_sec, soTimeout.tv_usec]
    let r1 := k tr.length c1
    let tr1 := tr ++ [c1]
    if r1.ret = -1 then
      ⟨error.os r1.errno, h, tr1, ()⟩
    else
      let c2 := Syscall.setsockopt h.m_fd SockOpt.SO_SNDTIMEO [soTimeout.tv_sec, soTimeout.tv_usec]
      let r2 := k tr1.length c2
      let tr2 := tr1 ++ [c2]
      if r2.ret = -1 then
        ⟨error.os r2.errno, h, tr2, ()⟩
      else if cfg.has_TCP_USER_TIMEOUT then
        let userTimeout := timeoutMilliseconds % 4294967296
        let c3 := Syscall.setsockopt h.m_fd SockOpt.TCP_USER_TIMEOUT [userTimeout]
        let r3 := k tr2.length c3
        let tr3 := tr2 ++ [c3]
        if r3.ret = -1 then
          ⟨error.os r3.errno, h, tr3, ()⟩
        else
          ⟨error.nil, { h with m_timeoutMilliseconds := timeoutMilliseconds }, tr3, ()⟩
      else
        ⟨error.nil, { h with m_timeoutMilliseconds := timeoutMilliseconds }, tr2, ()⟩

/-- `TCPSocket::SetKeepAlive` (tcp_unix.cpp:230-241); `enable` is the
parameter `on`. -/
def TCPSocket.SetKeepAlive (k : Kernel) (h : TCPSocket) (tr : List Syscall) (enable : Bool) :
    Ret TCPSocket Unit :=
  if h.m_closed then
    ⟨error.illegal_state, h, tr, ()⟩
  else
    let enabled : Int := if enable then 1 else 0
    let c := Syscall.setsockopt h.m_fd SockOpt.SO_KEEPALIVE [enabled]
    let r := k tr.length c
    let tr1 := tr ++ [c]
    if r.ret = -1 then
      ⟨error.os r.errno, h, tr1, ()⟩
    else
      ⟨error.nil, h, tr1, ()⟩

/-- The part of `TCPSocket::SetKeepAlivePeriod` under `#ifdef TCP_KEEPINTVL`
and its final `return` (tcp_unix.cpp:265-272). -/
def TCPSocket.setKeepIntvl (cfg : BuildConfig) (k : Kernel) (h : TCPSocket) (tr : List Syscall)
    (periodSeconds : Int) : Ret TCPSocket Unit :=
  if cfg.has_TCP_KEEPINTVL then
    let c := Syscall.setsockopt h.m_fd SockOpt.TCP_KEEPINTVL [periodSeconds]
    let r := k tr.length c
    let tr1 := tr ++ [c]
    if r.ret = -1 then
      ⟨error.os r.errno, h, tr1, ()⟩
    else
      ⟨error.nil, h, tr1, ()⟩
  else
    ⟨error.nil, h, tr, ()⟩

/-- `TCPSocket::SetKeepAlivePeriod` (tcp_unix.cpp:243-273). -/
def TCPSocket.SetKeepAlivePeriod (cfg : BuildConfig) (k : Kernel) (h : TCPSocket)
    (tr : List Syscall) (periodSeconds : Int) : Ret TCPSocket Unit :=
  if periodSeconds < 1 then
    ⟨error.illegal_argument, h, tr, ()⟩
  else if h.m_closed then
    ⟨error.illegal_state, h, tr, ()⟩
  else if cfg.has_TCP_KEEPIDLE then
    let c := Syscall.setsockopt h.m_fd SockOpt.TCP_KEEPIDLE [periodSeconds]
    let r := k tr.length c
    let tr1 := tr ++ [c]
    if r.ret = -1 then
      ⟨error.os r.errno, h, tr1, ()⟩
    else
      TCPSocket.setKeepIntvl cfg k h tr1 periodSeconds
  else if cfg.has_TCP_KEEPALIVE then
    let c := Syscall.setsockopt h.m_fd SockOpt.TCP_KEEPALIVE [periodSeconds]
    let r := k tr.length c
    let tr1 := tr ++ [c]
    if r.ret = -1 then
      ⟨error.os r.errno, h, tr1, ()⟩
    else
      TCPSocket.setKeepIntvl cfg k h tr1 periodSeconds
  else
    TCPSocket.setKeepIntvl cfg k h tr periodSeconds

/-- `TCPListener::Close` (tcp_unix.cpp:279-289). -/
def TCPListener.Close (k : Kernel) (l : TCPListener) (tr : List Syscall) :
    Ret TCPListener Unit :=
  if l.m_closed then
    ⟨error.nil, l, tr, ()⟩
  else
    let r := k tr.length (Syscall.close l.m_fd)
    let tr1 := tr ++ [Syscall.close l.m_fd]
    if r.ret = -1 then
      ⟨error.os r.errno, l, tr1, ()⟩
    else
      ⟨error.nil, { l with m_closed := true }, tr1, ()⟩

/-! ### Output cells and destructors

An output parameter `std::shared_ptr<T>* p` is an `Option (Option T)`: `none`
is a null pointer, `some cell` is the `shared_ptr` the pointer refers to.
The functions never read the cell, they only assign to it, and an assignment
destroys the handle the cell was the last owner of.  So `cell` is `some h`
when the cell is the last owner of a handle `h`, and `none` when it is empty
or shares its handle with another owner (the assignment then destroys
nothing).  After `*p = std::make_shared<T>(...)` the cell is `some` of the
new handle. -/

/-- `TCPSocket::~TCPSocket` (tcp_unix.cpp:153-155), run when a cell that is
the last owner of a handle is assigned: it calls `Close` and drops the
result.  The value is the calls made so far. -/
def TCPSocket.destroy (k : Kernel) (cell : Option TCPSocket) (tr : List Syscall) :
    List Syscall :=
  match cell with
  | none => tr
  | some h => (TCPSocket.Close k h tr).os

/-- `TCPListener::~TCPListener` (tcp_unix.cpp:275-277), run when a cell that
is the last owner of a listener is assigned. -/
def TCPListener.destroy (k : Kernel) (cell : Option TCPListener) (tr : List Syscall) :
    List Syscall :=
  match cell with
  | none => tr
  | some l => (TCPListener.Close k l tr).os

/-- The calls into the operating system a destructor makes on a handle with
the given `m_closed` and `m_fd`: `Close` calls `close(m_fd)` unless the
handle is closed already. -/
def closeCalls (held : Option (Bool × Int)) : List Syscall :=
  match held with
  | none => []
  | some (closed, fd) => if closed then [] else [Syscall.close fd]

/-- The part of `TCPListener::Accept` from the `accept` call on
(tcp_unix.cpp:309-319).  The assignment `*clientSock = ...` destroys the
handle the cell was the last owner of. -/
def TCPListener.acceptNow (k : Kernel) (l : TCPListener) (tr : List Syscall)
    (cell : Option TCPSocket) : Ret TCPListener (Option (Option TCPSocket)) :=
  let r := k tr.length (Syscall.accept l.m_fd)
  let tr1 := tr ++ [Syscall.accept l.m_fd]
  let clientFD := r.ret
  if clientFD = -1 then
    ⟨error.os r.errno, l, tr1, some cell⟩
  else
    ⟨error.nil, l, TCPSocket.destroy k cell tr1,
      some (some (TCPSocket.new clientFD r.addr r.port))⟩

/-- `TCPListener::Accept` (tcp_unix.cpp:291-320).  `clientSock` is `none`
for a null pointer, otherwise the `shared_ptr` cell it points to. -/
def TCPListener.Accept (k : Kernel) (l : TCPListener) (tr : List Syscall)
    (clientSock : Option (Option TCPSocket)) : Ret TCPListener (Option (Option TCPSocket)) :=
  match clientSock with
  | none => ⟨error.illegal_argument, l, tr, none⟩
  | some cell =>
    if l.m_closed then
      ⟨error.illegal_state, l, tr, some cell⟩
    else if l.m_timeoutMilliseconds > 0 then
      let w := waitUntilReady k tr l.m_fd true false false l.m_timeoutMilliseconds
      if w.1 ≠ error.nil then
        ⟨w.1, l, w.2, some cell⟩
      else
        TCPListener.acceptNow k l w.2 cell
    else
      TCPListener.acceptNow k l tr cell

/-- `TCPListener::SetTimeout` (tcp_unix.cpp:322-330). -/
def TCPListener.SetTimeout (l : TCPListener) (tr : List Syscall) (timeoutMilliseconds : Int) :
    Ret TCPListener Unit :=
  if l.m_closed then
    ⟨error.illegal_state, l, tr, ()⟩
  else
    ⟨error.nil, { l with m_timeoutMilliseconds := timeoutMilliseconds }, tr, ()⟩

/-! ## `net/tcp_windows.cpp` -/

namespace windows

/-- Modelled from the spec: the class declaration (`net/tcp.h`) is not among
the sources; the fields are those tcp_windows.cpp uses, the constructor is
`TCPSocket(fd, addr)`. -/
structure TCPSocket where
  m_fd : Int
  m_remoteAddr : String
  m_closed : Bool
  deriving DecidableEq, Repr

/-- Modelled from the spec: the class declaration (`net/tcp.h`) is not among
the sources; the fields are those tcp_windows.cpp uses. -/
structure TCPListener where
  m_fd : Int
  m_closed : Bool
  deriving DecidableEq, Repr

/-- `TCPSocket::Close` of the Windows backend (tcp_windows.cpp:145-155);
`SOCKET_ERROR` is `-1`. -/
def TCPSocket.Close (toError : Int → error) (k : Kernel) (h : TCPSocket) (tr : List Syscall) :
    Ret TCPSocket Unit :=
  if h.m_closed then
    ⟨error.nil, h, tr, ()⟩
  else
    let r := k tr.length (Syscall.close h.m_fd)
    let tr1 := tr ++ [Syscall.close h.m_fd]
    if r.ret = -1 then
      ⟨toError r.errno, h, tr1, ()⟩
    else
      ⟨error.nil, { h with m_closed := true }, tr1, ()⟩

/-- `TCPSocket::~TCPSocket` of the Windows backend (tcp_windows.cpp:141-143),
run when a cell that is the last owner of a handle is assigned. -/
def TCPSocket.destroy (toError : Int → error) (k : Kernel) (cell : Option TCPSocket)
    (tr : List Syscall) : List Syscall :=
  match cell with
  | none => tr
  | some h => (TCPSocket.Close toError k h tr).os

/-- `TCPListener::Accept` of the Windows backend (tcp_windows.cpp:233-249).
`toError` is the error mapping of the absent `error.h`; `INVALID_SOCKET` is
`-1`.  The assignment `*clientSock = ...` destroys the handle the cell was
the last owner of. -/
def TCPListener.Accept (toError : Int → error) (k : Kernel) (l : TCPListener)
    (tr : List Syscall) (clientSock : Option (Option TCPSocket)) :
    Ret TCPListener (Option (Option TCPSocket)) :=
  match clientSock with
  | none => ⟨error.illegal_argument, l, tr, none⟩
  | some cell =>
    let r := k tr.length (Syscall.accept l.m_fd)
    let tr1 := tr ++ [Syscall.accept l.m_fd]
    let clientFD := r.ret
    if clientFD = -1 then
      ⟨toError r.errno, l, tr1, some cell⟩
    else
      ⟨error.nil, l, TCPSocket.destroy toError k cell tr1,
        some (some ⟨clientFD, r.addr, false⟩)⟩

end windows

/-! ## `netlib/udp.h`, `netlib/udp_windows.cpp` -/

/-- The data members of `UDPSocket` (udp.h:39-43). -/
structure UDPSocket where
  m_fd : Int
  m_remoteAddr : String
  m_remotePort : Nat
  m_closed : Bool
  deriving DecidableEq, Repr

/-- `UDPSocket(fd)` (udp.h:15-16). -/
def UDPSocket.new (fd : Int) : UDPSocket := ⟨fd, "", 0, false⟩

/-- `UDPSocket(fd, addr, port)` (udp.h:17-18). -/
def UDPSocket.newPeer (fd : Int) (addr : String) (port : Nat) : UDPSocket :=
  ⟨fd, addr, port, false⟩

/-- `UDPSocket::Close` (udp_windows.cpp:63-73). -/
def UDPSocket.Close (k : Kernel) (h : UDPSocket) (tr : List Syscall) : Ret UDPSocket Unit :=
  if h.m_closed then
    ⟨error.nil, h, tr, ()⟩
  else
    let r := k tr.length (Syscall.close h.m_fd)
    let tr1 := tr ++ [Syscall.close h.m_fd]
    if r.ret = -1 then
      ⟨error.os r.errno, h, tr1, ()⟩
    else
      ⟨error.nil, { h with m_closed := true }, tr1, ()⟩

/-- `UDPSocket::~UDPSocket` (udp_windows.cpp:59-61), run when a cell that is
the last owner of a handle is assigned. -/
def UDPSocket.destroy (k : Kernel) (cell : Option UDPSocket) (tr : List Syscall) :
    List Syscall :=
  match cell with
  | none => tr
  | some h => (UDPSocket.Close k h tr).os

/-- `UDPSocket::Read` (udp_windows.cpp:75-92). -/
def UDPSocket.Read (k : Kernel) (h : UDPSocket) (tr : List Syscall) (buf : Buf) (len : Nat)
    (nbytes : Option Int) : Ret UDPSocket (Buf × Option Int) :=
  if h.m_closed then
    ⟨error.illegal_state, h, tr, (buf, nbytes)⟩
  else
    let r := k tr.length (Syscall.recv h.m_fd len)
    let tr1 := tr ++ [Syscall.recv h.m_fd len]
    let buf1 := buf.store 0 r.data
    let size := r.ret
    if size = -1 then
      ⟨error.os r.errno, h, tr1, (buf1, nbytes)⟩
    else if size = 0 then
      ⟨error.eof, h, tr1, (buf1, nbytes)⟩
    else
      ⟨error.nil, h, tr1, (buf1, nbytes.map (fun _ => size))⟩

/-- Output parameters of `UDPSocket::ReadFrom`: the memory at `buf`, the cell
`nbytes` points to (`none` for a null pointer), `*addr` and `*port`. -/
structure ReadFromOut where
  buf : Buf
  nbytes : Option Int
  addr : String
  port : Nat

/-- `UDPSocket::ReadFrom` (udp_windows.cpp:94-116). -/
def UDPSocket.ReadFrom (k : Kernel) (h : UDPSocket) (tr : List Syscall) (buf : Buf) (len : Nat)
    (nbytes : Option Int) (addr : String) (port : Nat) : Ret UDPSocket ReadFromOut :=
  if h.m_closed then
    ⟨error.illegal_state, h, tr, ⟨buf, nbytes, addr, port⟩⟩
  else
    let r := k tr.length (Syscall.recvfrom h.m_fd len)
    let tr1 := tr ++ [Syscall.recvfrom h.m_fd len]
    let buf1 := buf.store 0 r.data
    let size := r.ret
    if size = -1 then
      ⟨error.os r.errno, h, tr1, ⟨buf1, nbytes, addr, port⟩⟩
    else if size = 0 then
      ⟨error.eof, h, tr1, ⟨buf1, nbytes, r.addr, r.port⟩⟩
    else
      ⟨error.nil, h, tr1, ⟨buf1, nbytes.map (fun _ => size), r.addr, r.port⟩⟩

/-- `UDPSocket::WriteTo` (udp_windows.cpp:130-149). -/
def UDPSocket.WriteTo (k : Kernel) (h : UDPSocket) (tr : List Syscall) (buf : Buf) (len : Nat)
    (addr : String) (port : Nat) (nbytes : Option Int) : Ret UDPSocket (Option Int) :=
  if h.m_closed then
    ⟨error.illegal_state, h, tr, nbytes⟩
  else
    let c := Syscall.sendto h.m_fd (buf.load 0 len) addr port
    let r := k tr.length c
    let tr1 := tr ++ [c]
    let size := r.ret
    if size = -1 then
      ⟨error.os r.errno, h, tr1, nbytes⟩
    else
      ⟨error.nil, h, tr1, nbytes.map (fun _ => size)⟩

/-- `UDPSocket::Write` (udp_windows.cpp:118-128). -/
def UDPSocket.Write (k : Kernel) (h : UDPSocket) (tr : List Syscall) (buf : Buf) (len : Nat)
    (nbytes : Option Int) : Ret UDPSocket (Option Int) :=
  if h.m_closed then
    ⟨error.illegal_state, h, tr, nbytes⟩
  else if h.m_remoteAddr = "" ∧ h.m_remotePort = 0 then
    ⟨error.illegal_state, h, tr, nbytes⟩
  else
    UDPSocket.WriteTo k h tr buf len h.m_remoteAddr h.m_remotePort nbytes

/-- `UDPSocket::SetTimeout` (udp_windows.cpp:151-165); `DWORD` is 32 bits. -/
def UDPSocket.SetTimeout (k : Kernel) (h : UDPSocket) (tr : List Syscall)
    (timeoutMilliseconds : Int) : Ret UDPSocket Unit :=
  if h.m_closed then
    ⟨error.illegal_state, h, tr, ()⟩
  else
    let soTimeout := (if timeoutMilliseconds > 0 then timeoutMilliseconds else 0) % 4294967296
    let c1 := Syscall.setsockopt h.m_fd SockOpt.SO_RCVTIMEO [soTimeout]
    let r1 := k tr.length c1
    let tr1 := tr ++ [c1]
    if r1.ret = -1 then
      ⟨error.os r1.errno, h, tr1, ()⟩
    else
      let c2 := Syscall.setsockopt h.m_fd SockOpt.SO_SNDTIMEO [soTimeout]
      let r2 := k tr1.length c2
      let tr2 := tr1 ++ [c2]
      if r2.ret = -1 then
        ⟨error.os r2.errno, h, tr2, ()⟩
      else
        ⟨error.nil, h, tr2, ()⟩

/-! ## `ConnectTCP`, `ListenTCP` (tcp_unix.cpp), `ListenUDP` (udp_windows.cpp) -/

/-- Modelled from the spec: the constructor `TCPListener(fd)` of the absent
`tcp.h`; a new listener is open and has no accept-timeout. -/
def TCPListener.new (fd : Int) : TCPListener := ⟨fd, false, 0⟩

/-- `kBlockingMode` (tcp_unix.cpp:17). -/
def kBlockingMode : Int := 0

/-- `kNonBlockingMode` (tcp_unix.cpp:18). -/
def kNonBlockingMode : Int := 1

/-- The branch `timeoutMilliseconds <= 0` of `ConnectTCP` and the final
assignment (tcp_unix.cpp:85-90, 109-110), which destroys the handle the cell
was the last owner of. -/
def ConnectTCP.blocking (k : Kernel) (tr : List Syscall) (fd : Int) (remoteAddr : String)
    (port : Nat) (cell : Option TCPSocket) : Ret Unit (Option (Option TCPSocket)) :=
  let c := Syscall.connect fd remoteAddr port
  let r := k tr.length c
  let tr1 := tr ++ [c]
  if r.ret = -1 then
    let connErr := r.errno
    ⟨error.os connErr, (), tr1 ++ [Syscall.close fd], some cell⟩
  else
    ⟨error.nil, (), TCPSocket.destroy k cell tr1,
      some (some (TCPSocket.new fd remoteAddr port))⟩

/-- The branch `timeoutMilliseconds > 0` of `ConnectTCP` and the final
assignment (tcp_unix.cpp:91-110), which destroys the handle the cell was the
last owner of.  `EINPROGRESS` is the constant of `<cerrno>`. -/
def ConnectTCP.nonBlocking (EINPROGRESS : Int) (k : Kernel) (tr : List Syscall) (fd : Int)
    (remoteAddr : String) (port : Nat) (timeoutMilliseconds : Int) (cell : Option TCPSocket) :
    Ret Unit (Option (Option TCPSocket)) :=
  let tr1 := tr ++ [Syscall.ioctl fd kNonBlockingMode]
  let c := Syscall.connect fd remoteAddr port
  let r := k tr1.length c
  let tr2 := tr1 ++ [c]
  if r.ret = -1 ∧ r.errno ≠ EINPROGRESS then
    ⟨error.os r.errno, (), tr2 ++ [Syscall.close fd], some cell⟩
  else
    let w := waitUntilReady k tr2 fd false true false timeoutMilliseconds
    if w.1 ≠ error.nil then
      ⟨w.1, (), w.2 ++ [Syscall.close fd], some cell⟩
    else
      ⟨error.nil, (), TCPSocket.destroy k cell (w.2 ++ [Syscall.ioctl fd kBlockingMode]),
        some (some (TCPSocket.new fd remoteAddr port))⟩

/-- `ConnectTCP` (tcp_unix.cpp:60-111).  `LookupAddress` is the resolver of
the absent `resolver.h`: the error it returns and the string it stores in
`remoteAddr`.  `clientSock` is `none` for a null pointer, otherwise the
`shared_ptr` cell it points to. -/
def ConnectTCP (EINPROGRESS : Int) (LookupAddress : String → error × String) (k : Kernel)
    (tr : List Syscall) (host : String) (port : Nat) (timeoutMilliseconds : Int)
    (clientSock : Option (Option TCPSocket)) : Ret Unit (Option (Option TCPSocket)) :=
  match clientSock with
  | none => ⟨error.illegal_argument, (), tr, none⟩
  | some cell =>
    let tr0 := tr ++ [Syscall.init]
    let addrErr := (LookupAddress host).1
    let remoteAddr := (LookupAddress host).2
    if addrErr ≠ error.nil then
      ⟨addrErr, (), tr0, some cell⟩
    else
      let s := k tr0.length (Syscall.socket SockType.SOCK_STREAM)
      let tr1 := tr0 ++ [Syscall.socket SockType.SOCK_STREAM]
      let fd := s.ret
      if fd = -1 then
        ⟨error.os s.errno, (), tr1, some cell⟩
      else if timeoutMilliseconds ≤ 0 then
        ConnectTCP.blocking k tr1 fd remoteAddr port cell
      else
        ConnectTCP.nonBlocking EINPROGRESS k tr1 fd remoteAddr port timeoutMilliseconds cell

/-- `ListenTCP` (tcp_unix.cpp:113-151).  The assignment `*serverSock = ...`
destroys the listener the cell was the last owner of. -/
def ListenTCP (k : Kernel) (tr : List Syscall) (port : Nat)
    (serverSock : Option (Option TCPListener)) : Ret Unit (Option (Option TCPListener)) :=
  match serverSock with
  | none => ⟨error.illegal_argument, (), tr, none⟩
  | some cell =>
    let tr0 := tr ++ [Syscall.init]
    let s := k tr0.length (Syscall.socket SockType.SOCK_STREAM)
    let tr1 := tr0 ++ [Syscall.socket SockType.SOCK_STREAM]
    let fd := s.ret
    if fd = -1 then
      ⟨error.os s.errno, (), tr1, some cell⟩
    else
      let c2 := Syscall.setsockopt fd SockOpt.SO_REUSEADDR [1]
      let r2 := k tr1.length c2
      let tr2 := tr1 ++ [c2]
      if r2.ret = -1 then
        ⟨error.os r2.errno, (), tr2 ++ [Syscall.close fd], some cell⟩
      else
        let r3 := k tr2.length (Syscall.bind fd port)
        let tr3 := tr2 ++ [Syscall.bind fd port]
        if r3.ret = -1 then
          ⟨error.os r3.errno, (), tr3 ++ [Syscall.close fd], some cell⟩
        else
          let r4 := k tr3.length (Syscall.listen fd)
          let tr4 := tr3 ++ [Syscall.listen fd]
          if r4.ret = -1 then
            ⟨error.os r4.errno, (), tr4 ++ [Syscall.close fd], some cell⟩
          else
            ⟨error.nil, (), TCPListener.destroy k cell tr4, some (some (TCPListener.new fd))⟩

/-- `ListenUDP` (udp_windows.cpp:32-57); `INVALID_SOCKET` and `SOCKET_ERROR`
are `-1`.  The assignment `*serverSock = ...` destroys the handle the cell
was the last owner of. -/
def ListenUDP (k : Kernel) (tr : List Syscall) (port : Nat)
    (serverSock : Option (Option UDPSocket)) : Ret Unit (Option (Option UDPSocket)) :=
  match serverSock with
  | none => ⟨error.illegal_argument, (), tr, none⟩
  | some cell =>
    let tr0 := tr ++ [Syscall.init]
    let s := k tr0.length (Syscall.socket SockType.SOCK_DGRAM)
    let tr1 := tr0 ++ [Syscall.socket SockType.SOCK_DGRAM]
    let fd := s.ret
    if fd = -1 then
      ⟨error.os s.errno, (), tr1, some cell⟩
    else
      let r2 := k tr1.length (Syscall.bind fd port)
      let tr2 := tr1 ++ [Syscall.bind fd port]
      if r2.ret = -1 then
        let err := r2.errno
        ⟨error.os err, (), tr2 ++ [Syscall.close fd], some cell⟩
      else
        ⟨error.nil, (), UDPSocket.destroy k cell tr2, some (some (UDPSocket.new fd))⟩

/-! ### Example environments -/

/-- An operating system in which every call fails with error code 5. -/
def failingKernel : Kernel := fun _ _ => ⟨-1, 5, [], "", 0, 0⟩

/-- An operating system in which every call returns 7 and reports the peer
10.0.0.2:4000. -/
def acceptingKernel : Kernel := fun _ _ => ⟨7, 0, [], "10.0.0.2", 4000, 0⟩

/-- An operating system that answers the calls in order from a list, and
with zeros once the list is used up. -/
def listKernel (answers : List SysRet) : Kernel :=
  fun i _ => answers.getD i ⟨0, 0, [], "", 0, 0⟩

/-! # Theorems

## Sizes, memory and `ReadFull` over a fragmented stream -/

theorem size_add_eq {a b : Nat} (h : a + b < SIZE_MOD) : size_add a b = a + b := by
  unfold size_add
  exact Nat.mod_eq_of_lt h

theorem size_sub_eq {a b : Nat} (hb : b ≤ a) (ha : a < SIZE_MOD) : size_sub a b = a - b := by
  unfold size_sub
  unfold SIZE_MOD at *
  omega

theorem size_add_le (a b : Nat) : size_add a b ≤ a + b := by
  unfold size_add
  exact Nat.mod_le _ _

theorem getD_take_drop (s : List UInt8) (off n i : Nat) (h1 : off ≤ i) (h2 : i < off + n) :
    ((s.drop off).take n).getD (i - off) 0 = s.getD i 0 := by
  rw [List.getD_eq_getElem?_getD, List.getD_eq_getElem?_getD,
    List.getElem?_take_of_lt (by omega), List.getElem?_drop]
  congr 2
  omega

theorem load_eq_take (m : Buf) (s : List UInt8) (n : Nat) (hn : n ≤ s.length)
    (h : ∀ i, i < n → m i = s.getD i 0) : m.load 0 n = s.take n := by
  apply List.ext_getElem
  · simp [Buf.load, hn]
  · intro i h1 h2
    have hi : i < n := by simpa [Buf.load] using h1
    simp only [Buf.load, List.getElem_map, List.getElem_range, List.getElem_take, Nat.zero_add]
    rw [h i hi, List.getD_eq_getElem s 0 (by omega)]

/-- Loop invariant of `ReadFull` over a fragmented stream. -/
theorem ReadFullLoop_stream (frag : Nat → Nat → Nat)
    (hfrag : ∀ i req, 1 ≤ req → 1 ≤ frag i req ∧ frag i req ≤ req)
    (s : List UInt8) (N : Nat) (hN : N < SIZE_MOD) (hs : N ≤ s.length) :
    ∀ (fuel off calls : Nat) (buf : Buf), off < N → N - off ≤ fuel →
      (∀ i, i < off → buf i = s.getD i 0) →
      ∃ c buf1, ReadFullLoop (streamReader frag) N fuel ⟨s.drop off, calls⟩ buf off
          = some ⟨error.nil, ⟨s.drop N, c⟩, some buf1⟩
        ∧ (∀ i, i < N → buf1 i = s.getD i 0) ∧ (∀ i, N ≤ i → buf1 i = buf i)
        ∧ c ≤ calls + (N - off) := by
  intro fuel
  induction fuel with
  | zero => intro off calls buf h1 h2; omega
  | succ fuel ih =>
    intro off calls buf hoff hfuel hbuf
    have hreq : size_sub N off = N - off := size_sub_eq (by omega) hN
    obtain ⟨hf1, hf2⟩ := hfrag calls (N - off) (by omega)
    generalize hn : frag calls (N - off) = n at hf1 hf2
    have hlen : ((s.drop off).take n).length = n := by
      rw [List.length_take, List.length_drop]; omega
    have hne : (s.drop off).take n ≠ [] := by
      intro h0; rw [h0] at hlen; simp at hlen; omega
    have hadd : size_add off n = off + n := size_add_eq (by omega)
    have hstore : ∀ i, i < off + n → (buf.store off ((s.drop off).take n)) i = s.getD i 0 := by
      intro i hi
      unfold Buf.store
      rw [hlen]
      by_cases hc : off ≤ i
      · rw [if_pos ⟨hc, hi⟩]; exact getD_take_drop s off n i hc hi
      · rw [if_neg (by omega)]; exact hbuf i (by omega)
    have hkeep : ∀ i, off + n ≤ i → (buf.store off ((s.drop off).take n)) i = buf i := by
      intro i hi
      unfold Buf.store
      rw [hlen, if_neg (by omega)]
    by_cases hdone : N ≤ off + n
    · have hNeq : off + n = N := by omega
      refine ⟨calls + 1, buf.store off ((s.drop off).take n), ?_, ?_, ?_, by omega⟩
      · simp only [ReadFullLoop, streamReader, hreq, hn, if_neg hne, hlen, hadd, List.drop_drop,
          ne_eq, not_true_eq_false, if_false, ge_iff_le, if_pos hdone]
        rw [hNeq]
      · intro i hi; exact hstore i (by omega)
      · intro i hi; exact hkeep i (by omega)
    · obtain ⟨c, buf1, hrun, hin, hout, hc⟩ := ih (off + n) (calls + 1)
        (buf.store off ((s.drop off).take n)) (by omega) (by omega) hstore
      refine ⟨c, buf1, ?_, hin, ?_, by omega⟩
      · simp only [ReadFullLoop, streamReader, hreq, hn, if_neg hne, hlen, hadd, List.drop_drop,
          ne_eq, not_true_eq_false, if_false, ge_iff_le, if_neg hdone]
        exact hrun
      · intro i hi; rw [hout i hi]; exact hkeep i (by omega)

/-! ## Scripted readers and recording writers -/

theorem scriptBytes_succ (outs : Nat → error × List UInt8) (k : Nat) :
    scriptBytes outs (k + 1) = scriptBytes outs k + (outs k).2.length := by
  unfold scriptBytes
  exact List.sum_range_succ _ k

theorem scriptBytes_mono (outs : Nat → error × List UInt8) {j k : Nat} (h : j ≤ k) :
    scriptBytes outs j ≤ scriptBytes outs k := by
  induction k with
  | zero =>
    have hj : j = 0 := by omega
    rw [hj]
  | succ k ih =>
    by_cases hjk : j = k + 1
    · rw [hjk]
    · have := ih (by omega)
      rw [scriptBytes_succ]
      omega

/-- A scripted `ReadFull` stops at the first failing `Read`. -/
theorem ReadFullLoop_script_error (outs : Nat → error × List UInt8) (len : Nat)
    (hlen : len < SIZE_MOD) (k : Nat) (e : error)
    (hok : ∀ i, i < k → (outs i).1 = error.nil) (hsum : scriptBytes outs k < len)
    (hk : (outs k).1 = e) (he : e ≠ error.nil) :
    ∀ (fuel j : Nat) (buf : Buf), j ≤ k → k - j < fuel →
      ∃ b, ReadFullLoop (scriptReader outs) len fuel ⟨j⟩ buf (scriptBytes outs j)
        = some ⟨e, ⟨k + 1⟩, some b⟩ := by
  intro fuel
  induction fuel with
  | zero => intro j buf h1 h2; omega
  | succ fuel ih =>
    intro j buf hj hfuel
    by_cases hjk : j = k
    · subst hjk
      refine ⟨buf.store (scriptBytes outs j) (outs j).2, ?_⟩
      simp only [ReadFullLoop, scriptReader, hk, if_pos he]
    · have hlt : j < k := by omega
      have hnil := hok j hlt
      have hmono := scriptBytes_mono outs (show j + 1 ≤ k by omega)
      have hsucc := scriptBytes_succ outs j
      have hadd : size_add (scriptBytes outs j) (outs j).2.length = scriptBytes outs (j + 1) := by
        rw [hsucc]
        exact size_add_eq (by omega)
      obtain ⟨b, hb⟩ := ih (j + 1) (buf.store (scriptBytes outs j) (outs j).2) (by omega) (by omega)
      refine ⟨b, ?_⟩
      have hcont : ¬ (len ≤ scriptBytes outs (j + 1)) := by omega
      simp only [ReadFullLoop, scriptReader, hnil, ne_eq, not_true_eq_false, if_false, hadd,
        ge_iff_le, if_neg hcont]
      exact hb

/-- A scripted `ReadFull` that returns `nil` has been reported at least `len`
bytes. -/
theorem ReadFullLoop_script_nil (outs : Nat → error × List UInt8) (len : Nat) :
    ∀ (fuel j off : Nat) (buf : Buf) (r : StreamResult ScriptState), off ≤ scriptBytes outs j →
      ReadFullLoop (scriptReader outs) len fuel ⟨j⟩ buf off = some r → r.err = error.nil →
      len ≤ scriptBytes outs r.st.calls := by
  intro fuel
  induction fuel with
  | zero => intro j off buf r _ h; simp [ReadFullLoop] at h
  | succ fuel ih =>
    intro j off buf r hoff hrun hr
    have hsucc := scriptBytes_succ outs j
    have hle := size_add_le off (outs j).2.length
    simp only [ReadFullLoop, scriptReader] at hrun
    by_cases hne : (outs j).1 ≠ error.nil
    · rw [if_pos hne] at hrun
      have hr2 : r = ⟨(outs j).1, ⟨j + 1⟩, some (buf.store off (outs j).2)⟩ :=
        (Option.some.inj hrun).symm
      rw [hr2] at hr
      exact absurd hr hne
    · rw [if_neg hne] at hrun
      by_cases hdone : size_add off (outs j).2.length ≥ len
      · rw [if_pos hdone] at hrun
        have hr2 : r = ⟨error.nil, ⟨j + 1⟩, some (buf.store off (outs j).2)⟩ :=
          (Option.some.inj hrun).symm
        rw [hr2]
        show len ≤ scriptBytes outs (j + 1)
        omega
      · rw [if_neg hdone] at hrun
        exact ih (j + 1) _ _ r (by omega) hrun hr

theorem load_length (m : Buf) (p n : Nat) : (m.load p n).length = n := by
  simp [Buf.load]

theorem take_load (m : Buf) (p n k : Nat) (h : n ≤ k) : (m.load p k).take n = m.load p n := by
  apply List.ext_getElem
  · simp [Buf.load, h]
  · intro i h1 h2
    simp [Buf.load]

theorem load_append (m : Buf) (a b : Nat) : m.load 0 a ++ m.load a b = m.load 0 (a + b) := by
  apply List.ext_getElem
  · simp [Buf.load]
  · intro i h1 h2
    have hi : i < a + b := by simpa [Buf.load] using h2
    by_cases hia : i < a
    · rw [List.getElem_append_left (by simpa [Buf.load] using hia)]
      simp [Buf.load]
    · rw [List.getElem_append_right (by simpa [Buf.load] using hia)]
      simp only [Buf.load, List.getElem_map, List.getElem_range, List.length_map,
        List.length_range, Nat.zero_add]
      congr 1
      omega

theorem SinkState.bytes_snoc (calls : List WriteCall) (c : WriteCall) :
    SinkState.bytes ⟨calls ++ [c]⟩ = SinkState.bytes ⟨calls⟩ ++ c.accepted := by
  simp [SinkState.bytes]

/-- Loop invariant of `WriteFull` over a recording writer. -/
theorem WriteFullLoop_sink (out : Nat → Nat → error × Nat) (buf : Buf) (len : Nat)
    (hlen : len < SIZE_MOD)
    (hshort : ∀ i req, 1 ≤ req → (out i req).1 = error.nil →
      1 ≤ (out i req).2 ∧ (out i req).2 ≤ req) :
    ∀ (fuel off : Nat) (st : SinkState), off < len → len - off ≤ fuel →
      st.bytes = buf.load 0 off → (∀ c ∈ st.calls, c.err = error.nil) →
      ∃ e st1, WriteFullLoop (sinkWriter out) buf len fuel st off = some ⟨e, st1⟩ ∧
        ∃ pre last k, st1.calls = pre ++ [last] ∧ (∀ c ∈ pre, c.err = error.nil) ∧
          last.err = e ∧ k ≤ len ∧ st1.bytes = buf.load 0 k ∧ (e = error.nil → k = len) ∧
          (e ≠ error.nil → k < len ∧ e = (out pre.length (len - k)).1) := by
  intro fuel
  induction fuel with
  | zero => intro off st h1 h2; omega
  | succ fuel ih =>
    intro off st hoff hfuel hbytes hcalls
    have hreq : size_sub len off = len - off := size_sub_eq (by omega) hlen
    by_cases hne : (out st.calls.length (len - off)).1 ≠ error.nil
    · refine ⟨(out st.calls.length (len - off)).1,
        ⟨st.calls ++ [⟨[], (out st.calls.length (len - off)).1⟩]⟩, ?_,
        st.calls, ⟨[], (out st.calls.length (len - off)).1⟩, off, rfl, hcalls, rfl,
        by omega, ?_, fun h => absurd h hne, fun _ => ⟨hoff, rfl⟩⟩
      · simp only [WriteFullLoop, sinkWriter, hreq, load_length, if_pos hne]
      · rw [SinkState.bytes_snoc]
        simpa using hbytes
    · have hnil : (out st.calls.length (len - off)).1 = error.nil := by
        by_contra h; exact hne h
      obtain ⟨hn1, hn2⟩ := hshort st.calls.length (len - off) (by omega) hnil
      generalize hn : (out st.calls.length (len - off)).2 = n at hn1 hn2
      have hadd : size_add off n = off + n := size_add_eq (by omega)
      have htake : (buf.load off (len - off)).take n = buf.load off n := take_load buf off n _ hn2
      have hbytes1 : SinkState.bytes ⟨st.calls ++ [⟨buf.load off n, error.nil⟩]⟩
          = buf.load 0 (off + n) := by
        rw [SinkState.bytes_snoc, ← load_append]
        show st.bytes ++ buf.load off n = _
        rw [hbytes]
      have hcalls1 : ∀ c ∈ st.calls ++ [(⟨buf.load off n, error.nil⟩ : WriteCall)],
          c.err = error.nil := by
        intro c hc
        rcases List.mem_append.mp hc with h | h
        · exact hcalls c h
        · rw [List.mem_singleton.mp h]
      by_cases hdone : len ≤ off + n
      · have hk : off + n = len := by omega
        refine ⟨error.nil, ⟨st.calls ++ [⟨buf.load off n, error.nil⟩]⟩, ?_,
          st.calls, ⟨buf.load off n, error.nil⟩, len, rfl, hcalls, rfl, le_refl _, ?_,
          fun _ => rfl, fun h => absurd rfl h⟩
        · simp only [WriteFullLoop, sinkWriter, hreq, load_length, if_neg hne, hn, hadd,
            ge_iff_le, if_pos hdone, htake, ne_eq, not_true_eq_false, if_false]
        · rw [hbytes1, hk]
      · obtain ⟨e, st1, hrun, hrest⟩ := ih (off + n)
          ⟨st.calls ++ [⟨buf.load off n, error.nil⟩]⟩ (by omega) (by omega) hbytes1 hcalls1
        refine ⟨e, st1, ?_, hrest⟩
        simp only [WriteFullLoop, sinkWriter, hreq, load_length, if_neg hne, hn, hadd,
          ge_iff_le, if_neg hdone, htake, ne_eq, not_true_eq_false, if_false]
        exact hrun

/-! ## `ReadFull` and `WriteFull` -/

/-- C1: over a byte stream `s` holding at least `N >= 1` bytes and delivered
in fragments of any sizes between 1 and the number of bytes requested,
`ReadFull(buf, N)` returns `nil`, `buf[0..N)` is the first `N` bytes of `s`
in order, and exactly `N` bytes of the stream are consumed. -/
theorem ReadFull_assembles_fragments (frag : Nat → Nat → Nat) (s : List UInt8) (N : Nat)
    (buf : Buf) (fuel : Nat) (hN1 : 1 ≤ N) (hN : N < SIZE_MOD) (hs : N ≤ s.length)
    (hfrag : ∀ i req, 1 ≤ req → 1 ≤ frag i req ∧ frag i req ≤ req) (hfuel : N ≤ fuel) :
    ∃ c buf1, ReadFull (streamReader frag) fuel ⟨s, 0⟩ (some buf) N
        = some ⟨error.nil, ⟨s.drop N, c⟩, some buf1⟩
      ∧ buf1.load 0 N = s.take N := by
  obtain ⟨c, buf1, hrun, hin, _, _⟩ :=
    ReadFullLoop_stream frag hfrag s N hN hs fuel 0 0 buf (by omega) (by omega)
      (fun i hi => absurd hi (Nat.not_lt_zero i))
  exact ⟨c, buf1, hrun, load_eq_take buf1 s N hs hin⟩

/-- Witness of C1: ten bytes delivered in fragments of 1, 2, 3, ... bytes,
seven of them asked for. -/
theorem ReadFull_assembles_fragments_witness :
    ∃ c buf1, ReadFull (streamReader (fun i req => min req (i + 1))) 7
        ⟨[97, 98, 99, 100, 101, 102, 103, 104, 105, 106], 0⟩ (some (fun _ => 0)) 7
        = some ⟨error.nil, ⟨[104, 105, 106], c⟩, some buf1⟩
      ∧ buf1.load 0 7 = [97, 98, 99, 100, 101, 102, 103] :=
  ReadFull_assembles_fragments (fun i req => min req (i + 1))
    [97, 98, 99, 100, 101, 102, 103, 104, 105, 106] 7 (fun _ => 0) 7
    (by decide) (by decide) (by decide)
    (fun i req h => by show 1 ≤ min req (i + 1) ∧ min req (i + 1) ≤ req; omega) (by decide)

/-- C2: `ReadFull` never reports a short result as success.  Over any
sequence of `Read` outcomes: if the first `k` reads succeed having reported
fewer than `len` bytes in total and read number `k` returns an error `e`
(`eof` included), `ReadFull` returns `e` after exactly `k + 1` reads; and
whenever `ReadFull` returns `nil`, the reads it made reported at least `len`
bytes. -/
theorem ReadFull_first_error (outs : Nat → error × List UInt8) (buf : Buf) (len : Nat)
    (hlen : len < SIZE_MOD) :
    (∀ k e fuel, (∀ i, i < k → (outs i).1 = error.nil) → scriptBytes outs k < len →
        (outs k).1 = e → e ≠ error.nil → k < fuel →
        ∃ b, ReadFull (scriptReader outs) fuel ⟨0⟩ (some buf) len = some ⟨e, ⟨k + 1⟩, some b⟩)
    ∧ (∀ fuel r, ReadFull (scriptReader outs) fuel ⟨0⟩ (some buf) len = some r →
        r.err = error.nil → len ≤ scriptBytes outs r.st.calls) := by
  constructor
  · intro k e fuel hok hsum hk he hfuel
    exact ReadFullLoop_script_error outs len hlen k e hok hsum hk he fuel 0 buf (by omega)
      (by omega)
  · intro fuel r hrun hr
    exact ReadFullLoop_script_nil outs len fuel 0 0 buf r (Nat.zero_le _) hrun hr

/-- Witness of C2: two reads of three bytes, then `eof`, ten bytes asked for. -/
theorem ReadFull_first_error_witness :
    ∃ b, ReadFull (scriptReader (fun i => if i < 2 then (error.nil, [1, 2, 3]) else (error.eof, [])))
      3 ⟨0⟩ (some (fun _ => 0)) 10 = some ⟨error.eof, ⟨3⟩, some b⟩ :=
  (ReadFull_first_error (fun i => if i < 2 then (error.nil, [1, 2, 3]) else (error.eof, []))
    (fun _ => 0) 10 (by decide)).1 2 error.eof 3
    (fun i hi => by simp [hi]) (by decide) (by decide) (by decide) (by decide)

/-- C3: `WriteFull` over a writer that accepts, on success, between 1 and the
number of bytes offered.  It returns; the calls it made are a run of
successful writes ended by one last call whose error is the one returned
(so nothing is written after a failing `Write`, and the error returned is
that of the first failing `Write`); the concatenation of the accepted ranges
is `buf[0..k)` for the number `k` of bytes accepted; when every write
succeeds it returns `nil`, and when it returns `nil` the concatenation is
`buf[0..len)`. -/
theorem WriteFull_repeat_until_complete (out : Nat → Nat → error × Nat) (buf : Buf)
    (len fuel : Nat) (h1 : 1 ≤ len) (hlen : len < SIZE_MOD)
    (hshort : ∀ i req, 1 ≤ req → (out i req).1 = error.nil →
      1 ≤ (out i req).2 ∧ (out i req).2 ≤ req)
    (hfuel : len ≤ fuel) :
    ∃ e st, WriteFull (sinkWriter out) fuel ⟨[]⟩ (some buf) len = some ⟨e, st⟩
      ∧ ((∀ i req, (out i req).1 = error.nil) → e = error.nil)
      ∧ (e = error.nil → st.bytes = buf.load 0 len)
      ∧ ∃ pre last k, st.calls = pre ++ [last] ∧ (∀ c ∈ pre, c.err = error.nil)
          ∧ last.err = e ∧ k ≤ len ∧ st.bytes = buf.load 0 k
          ∧ (e ≠ error.nil → k < len ∧ e = (out pre.length (len - k)).1) := by
  obtain ⟨e, st, hrun, pre, last, k, hc, hpre, hlast, hk, hbytes, hnil, herr⟩ :=
    WriteFullLoop_sink out buf len hlen hshort fuel 0 ⟨[]⟩ (by omega) (by omega)
      (by simp [SinkState.bytes, Buf.load]) (by simp)
  refine ⟨e, st, hrun, ?_, ?_, pre, last, k, hc, hpre, hlast, hk, hbytes, herr⟩
  · intro hall
    by_contra hne
    have := (herr hne).2
    rw [hall] at this
    exact hne this
  · intro he
    rw [hbytes, hnil he]

/-- Witness of C3: a writer taking 1, 2, 3, ... bytes, seven bytes to send. -/
theorem WriteFull_repeat_until_complete_witness :
    ∃ e st, WriteFull (sinkWriter (fun i req => (error.nil, min req (i + 1)))) 7 ⟨[]⟩
        (some (fun i => i.toUInt8)) 7 = some ⟨e, st⟩
      ∧ e = error.nil ∧ st.bytes = Buf.load (fun i => i.toUInt8) 0 7 :=
  match WriteFull_repeat_until_complete (fun i req => (error.nil, min req (i + 1)))
    (fun i => i.toUInt8) 7 7 (by decide) (by decide)
    (fun i req h _ => by show 1 ≤ min req (i + 1) ∧ min req (i + 1) ≤ req; omega)
    (by decide) with
  | ⟨e, st, hrun, hall, hnil, _⟩ => ⟨e, st, hrun, hall (fun _ _ => rfl), hnil (hall (fun _ _ => rfl))⟩

/-! ## `ReadLine` -/

theorem streamReader_read_one (frag : Nat → Nat → Nat) (s : List UInt8) (off calls : Nat)
    (hoff : off < s.length) (hfrag : frag calls 1 = 1) :
    (streamReader frag).Read ⟨s.drop off, calls⟩ 1
      = ⟨error.nil, [s.getD off 0], ⟨s.drop (off + 1), calls + 1⟩⟩ := by
  have hd : s.drop off = s.getD off 0 :: s.drop (off + 1) := by
    rw [List.getD_eq_getElem s 0 hoff]
    exact List.drop_eq_getElem_cons hoff
  simp [streamReader, hfrag, hd]

theorem store_single (m : Buf) (pos : Nat) (b : UInt8) (j : Nat) :
    (m.store pos [b]) j = if j = pos then b else m j := by
  unfold Buf.store
  by_cases h : j = pos
  · subst h; simp
  · rw [if_neg h, if_neg]
    simp only [List.length_singleton]
    omega

theorem getD_ne_of_getElem?_ne (s : List UInt8) (j : Nat) (hj : j < s.length)
    (h : s[j]? ≠ some 10) : s.getD j 0 ≠ 10 := by
  intro h10
  apply h
  rw [List.getElem?_eq_getElem hj, ← List.getD_eq_getElem s 0 hj, h10]

theorem load_snoc (m : Buf) (s : List UInt8) (n : Nat) (hn : n ≤ s.length)
    (h : ∀ i, i < n → m i = s.getD i 0) (h0 : m n = 0) :
    m.load 0 (n + 1) = s.take n ++ [0] := by
  rw [← load_append, load_eq_take m s n hn h]
  have h1 : m.load n 1 = [0] := by
    show List.map (fun i => m (n + i)) (List.range 1) = [0]
    rw [show List.range 1 = [0] from rfl]
    simp [h0]
  rw [h1]

/-- Loop invariant of `ReadLine` on the way to a newline at index `t`. -/
theorem ReadLineLoop_newline (frag : Nat → Nat → Nat) (hfrag : ∀ i, frag i 1 = 1)
    (s : List UInt8) (c t : Nat) (hc : c < SIZE_MOD) (ht : t + 2 ≤ c)
    (hnl : s[t]? = some 10) (hfirst : ∀ j, j < t → s[j]? ≠ some 10) :
    ∀ (fuel off calls : Nat) (buf : Buf), off ≤ t → t - off < fuel →
      (∀ j, j < off → buf j = s.getD j 0) →
      ∃ k buf1, ReadLineLoop (streamReader frag) c fuel ⟨s.drop off, calls⟩ buf off
          = some ⟨error.nil, ⟨s.drop (t + 1), k⟩, some buf1⟩
        ∧ (∀ j, j < t + 1 → buf1 j = s.getD j 0) ∧ buf1 (t + 1) = 0 := by
  have htlen : t < s.length := by
    by_contra h
    rw [List.getElem?_eq_none (by omega)] at hnl
    exact absurd hnl (by simp)
  have ht10 : s.getD t 0 = 10 := by
    rw [List.getD_eq_getElem?_getD, hnl]; rfl
  intro fuel
  induction fuel with
  | zero => intro off calls buf h1 h2; omega
  | succ fuel ih =>
    intro off calls buf hoff hfuel hbuf
    have hread := streamReader_read_one frag s off calls (by omega) (hfrag calls)
    have hst : ∀ j, j < off + 1 → (buf.store off [s.getD off 0]) j = s.getD j 0 := by
      intro j hj
      rw [store_single]
      by_cases h : j = off
      · rw [if_pos h, h]
      · rw [if_neg h]; exact hbuf j (by omega)
    have hadd1 : size_add off 1 = off + 1 := size_add_eq (by omega)
    by_cases hot : off = t
    · subst hot
      refine ⟨calls + 1, (buf.store off [s.getD off 0]).set (off + 1) 0, ?_, ?_, ?_⟩
      · have hat : (buf.store off [s.getD off 0]) off = 10 := by rw [hst off (by omega), ht10]
        simp only [ReadLineLoop, hread, ne_eq, not_true_eq_false, if_false, hat, if_true, hadd1]
      · intro j hj
        unfold Buf.set
        rw [if_neg (by omega)]
        exact hst j hj
      · simp [Buf.set]
    · have hlt : off < t := by omega
      have hat : (buf.store off [s.getD off 0]) off ≠ 10 := by
        rw [hst off (by omega)]
        exact getD_ne_of_getElem?_ne s off (by omega) (hfirst off hlt)
      have hadd2 : size_add (off + 1) 1 = off + 2 := size_add_eq (by omega)
      have hcont : ¬ (c ≤ off + 2) := by omega
      obtain ⟨k, buf1, hrun, h1, h2⟩ := ih (off + 1) (calls + 1) _ (by omega) (by omega) hst
      refine ⟨k, buf1, ?_, h1, h2⟩
      simp only [ReadLineLoop, hread, ne_eq, not_true_eq_false, if_false, if_neg hat, hadd1,
        List.length_singleton, hadd2, ge_iff_le, if_neg hcont]
      exact hrun

/-- Loop invariant of `ReadLine` on the way to a full buffer. -/
theorem ReadLineLoop_truncate (frag : Nat → Nat → Nat) (hfrag : ∀ i, frag i 1 = 1)
    (s : List UInt8) (c : Nat) (hc : c < SIZE_MOD) (hs : c - 1 ≤ s.length)
    (hnone : ∀ j, j < c - 1 → s[j]? ≠ some 10) :
    ∀ (fuel off calls : Nat) (buf : Buf), off + 1 < c → c - 1 - off ≤ fuel →
      (∀ j, j < off → buf j = s.getD j 0) →
      ∃ k buf1, ReadLineLoop (streamReader frag) c fuel ⟨s.drop off, calls⟩ buf off
          = some ⟨error.nil, ⟨s.drop (c - 1), k⟩, some buf1⟩
        ∧ (∀ j, j < c - 1 → buf1 j = s.getD j 0) ∧ buf1 (c - 1) = 0 := by
  intro fuel
  induction fuel with
  | zero => intro off calls buf h1 h2; omega
  | succ fuel ih =>
    intro off calls buf hoff hfuel hbuf
    have hread := streamReader_read_one frag s off calls (by omega) (hfrag calls)
    have hst : ∀ j, j < off + 1 → (buf.store off [s.getD off 0]) j = s.getD j 0 := by
      intro j hj
      rw [store_single]
      by_cases h : j = off
      · rw [if_pos h, h]
      · rw [if_neg h]; exact hbuf j (by omega)
    have hadd1 : size_add off 1 = off + 1 := size_add_eq (by omega)
    have hadd2 : size_add (off + 1) 1 = off + 2 := size_add_eq (by omega)
    have hat : (buf.store off [s.getD off 0]) off ≠ 10 := by
      rw [hst off (by omega)]
      exact getD_ne_of_getElem?_ne s off (by omega) (hnone off (by omega))
    by_cases hfull : c ≤ off + 2
    · have hc1 : c - 1 = off + 1 := by omega
      refine ⟨calls + 1, (buf.store off [s.getD off 0]).set (off + 1) 0, ?_, ?_, ?_⟩
      · simp only [ReadLineLoop, hread, ne_eq, not_true_eq_false, if_false, if_neg hat, hadd1,
          List.length_singleton, hadd2, ge_iff_le, if_pos hfull, hc1]
      · intro j hj
        unfold Buf.set
        rw [if_neg (by omega)]
        exact hst j (by omega)
      · rw [hc1]; simp [Buf.set]
    · obtain ⟨k, buf1, hrun, h1, h2⟩ := ih (off + 1) (calls + 1) _ (by omega) (by omega) hst
      refine ⟨k, buf1, ?_, h1, h2⟩
      simp only [ReadLineLoop, hread, ne_eq, not_true_eq_false, if_false, if_neg hat, hadd1,
        List.length_singleton, hadd2, ge_iff_le, if_neg hfull]
      exact hrun

/-- C4: `ReadLine` with capacity `c >= 2` over a stream `s` whose single-byte
reads succeed.  If the first newline of `s` is at index `i <= c - 2`, it
returns `nil`, the buffer holds `s[0..i]` (newline kept) followed by NUL, and
`i + 1` bytes are consumed; if `s` has at least `c - 1` bytes and none of its
first `c - 1` bytes is a newline, it returns `nil`, the buffer holds
`s[0..c-2]` followed by NUL, and `c - 1` bytes are consumed. -/
theorem ReadLine_first_line_or_truncated (frag : Nat → Nat → Nat) (s : List UInt8) (c : Nat)
    (buf : Buf) (fuel : Nat) (hc2 : 2 ≤ c) (hc : c < SIZE_MOD) (hfrag : ∀ i, frag i 1 = 1)
    (hfuel : c ≤ fuel) :
    (∀ i, i + 2 ≤ c → s[i]? = some 10 → (∀ j, j < i → s[j]? ≠ some 10) →
        ∃ k buf1, ReadLine (streamReader frag) fuel ⟨s, 0⟩ (some buf) c
            = some ⟨error.nil, ⟨s.drop (i + 1), k⟩, some buf1⟩
          ∧ buf1.load 0 (i + 2) = s.take (i + 1) ++ [0])
    ∧ (c - 1 ≤ s.length → (∀ j, j < c - 1 → s[j]? ≠ some 10) →
        ∃ k buf1, ReadLine (streamReader frag) fuel ⟨s, 0⟩ (some buf) c
            = some ⟨error.nil, ⟨s.drop (c - 1), k⟩, some buf1⟩
          ∧ buf1.load 0 c = s.take (c - 1) ++ [0]) := by
  constructor
  · intro i hi hnl hfirst
    have hilen : i < s.length := by
      by_contra h
      rw [List.getElem?_eq_none (by omega)] at hnl
      exact absurd hnl (by simp)
    obtain ⟨k, buf1, hrun, h1, h2⟩ := ReadLineLoop_newline frag hfrag s c i hc hi hnl hfirst
      fuel 0 0 buf (by omega) (by omega) (fun j hj => absurd hj (Nat.not_lt_zero j))
    exact ⟨k, buf1, hrun, load_snoc buf1 s (i + 1) (by omega) h1 h2⟩
  · intro hs hnone
    obtain ⟨k, buf1, hrun, h1, h2⟩ := ReadLineLoop_truncate frag hfrag s c hc hs hnone
      fuel 0 0 buf (by omega) (by omega) (fun j hj => absurd hj (Nat.not_lt_zero j))
    refine ⟨k, buf1, hrun, ?_⟩
    have := load_snoc buf1 s (c - 1) hs h1 h2
    rwa [show c - 1 + 1 = c by omega] at this

/-- Witness of C4: `"abc\n"` with a 10-byte buffer gives `"abc\n\0"`, four
bytes consumed. -/
theorem ReadLine_first_line_or_truncated_witness :
    ∃ k buf1, ReadLine wholeReader 10 ⟨[97, 98, 99, 10], 0⟩ (some (fun _ => 255)) 10
        = some ⟨error.nil, ⟨[], k⟩, some buf1⟩
      ∧ buf1.load 0 5 = [97, 98, 99, 10, 0] :=
  (ReadLine_first_line_or_truncated (fun _ req => req) [97, 98, 99, 10] 10 (fun _ => 255) 10
    (by decide) (by decide) (fun _ => rfl) (by decide)).1 3 (by decide) (by decide)
    (fun j hj => by
      have h : j = 0 ∨ j = 1 ∨ j = 2 := by omega
      rcases h with h | h | h <;> subst h <;> decide)

/-- Second example of C4, by evaluation: `"abcdefghij"` with a 5-byte buffer
gives `"abcd\0"`, four bytes consumed, the rest of the stream left unread. -/
theorem ReadLine_truncated_example :
    (ReadLine wholeReader 5 ⟨[97, 98, 99, 100, 101, 102, 103, 104, 105, 106], 0⟩
        (some (fun _ => 255)) 5).map
      (fun r => (r.err, r.st.rest, r.buf.map (fun m => m.load 0 6)))
      = some (error.nil, [101, 102, 103, 104, 105, 106], some [97, 98, 99, 100, 0, 255]) := by
  decide

theorem store_outside (m : Buf) (pos : Nat) (data : List UInt8) (i : Nat)
    (h : pos + data.length ≤ i) : (m.store pos data) i = m i := by
  unfold Buf.store
  rw [if_neg (by omega)]

theorem set_outside (m : Buf) (j : Nat) (b : UInt8) (i : Nat) (h : i ≠ j) :
    (m.set j b) i = m i := by
  unfold Buf.set
  rw [if_neg h]

/-- With room for a data byte and the NUL (`offset + 1 < len`), the loop of
`ReadLine` over a stream whose single-byte reads deliver at most one byte
stores nothing at or beyond index `len` and consumes at most
`len - 1 - offset` bytes. -/
theorem ReadLineLoop_in_bounds (frag : Nat → Nat → Nat) (hfrag : ∀ i, frag i 1 ≤ 1)
    (c : Nat) (hc : c < SIZE_MOD) :
    ∀ (fuel off : Nat) (st : StreamState) (buf : Buf) (r : StreamResult StreamState),
      off + 1 < c → ReadLineLoop (streamReader frag) c fuel st buf off = some r →
      (∃ b, r.buf = some b ∧ ∀ i, c ≤ i → b i = buf i)
        ∧ st.rest.length ≤ r.st.rest.length + (c - 1 - off) := by
  intro fuel
  induction fuel with
  | zero => intro off st buf r _ h; simp [ReadLineLoop] at h
  | succ fuel ih =>
    intro off st buf r hoff hrun
    have hadd1 : size_add off 1 = off + 1 := size_add_eq (by omega)
    by_cases hnil : st.rest.take (frag st.calls 1) = []
    · have hread : (streamReader frag).Read st 1
          = ⟨error.eof, [], ⟨st.rest, st.calls + 1⟩⟩ := by
        show (if st.rest.take (frag st.calls 1) = [] then
            (⟨error.eof, [], ⟨st.rest, st.calls + 1⟩⟩ : ReadResult StreamState)
          else ⟨error.nil, st.rest.take (frag st.calls 1),
            ⟨st.rest.drop (st.rest.take (frag st.calls 1)).length, st.calls + 1⟩⟩) = _
        rw [if_pos hnil]
      simp only [ReadLineLoop, hread, ne_eq, reduceCtorEq, not_false_eq_true, if_true] at hrun
      have hr := (Option.some.inj hrun).symm
      subst hr
      exact ⟨⟨_, rfl, fun i hi => store_outside buf off [] i (by simp; omega)⟩, by simp⟩
    · have hlen : (st.rest.take (frag st.calls 1)).length = 1 := by
        have h1 : (st.rest.take (frag st.calls 1)).length ≤ 1 := by
          rw [List.length_take]
          have := hfrag st.calls
          omega
        have h2 : (st.rest.take (frag st.calls 1)).length ≠ 0 := by
          intro h0
          exact hnil (List.length_eq_zero.mp h0)
        omega
      have hread : (streamReader frag).Read st 1
          = ⟨error.nil, st.rest.take (frag st.calls 1), ⟨st.rest.drop 1, st.calls + 1⟩⟩ := by
        show (if st.rest.take (frag st.calls 1) = [] then
            (⟨error.eof, [], ⟨st.rest, st.calls + 1⟩⟩ : ReadResult StreamState)
          else ⟨error.nil, st.rest.take (frag st.calls 1),
            ⟨st.rest.drop (st.rest.take (frag st.calls 1)).length, st.calls + 1⟩⟩) = _
        rw [if_neg hnil, hlen]
      have hrest : st.rest.length ≤ (st.rest.drop 1).length + 1 := by
        rw [List.length_drop]; omega
      have hkeep : ∀ i, c ≤ i → (buf.store off (st.rest.take (frag st.calls 1))) i = buf i :=
        fun i hi => store_outside buf off _ i (by rw [hlen]; omega)
      have hadd2 : size_add (off + 1) 1 = off + 2 := size_add_eq (by omega)
      simp only [ReadLineLoop, hread, ne_eq, not_true_eq_false, if_false, hadd1, hlen, hadd2,
        ge_iff_le] at hrun
      by_cases hat : (buf.store off (st.rest.take (frag st.calls 1))) off = 10
      · rw [if_pos hat] at hrun
        have hr := (Option.some.inj hrun).symm
        subst hr
        refine ⟨⟨_, rfl, fun i hi => ?_⟩, ?_⟩
        · rw [set_outside _ _ _ _ (by omega)]
          exact hkeep i hi
        · show st.rest.length ≤ (st.rest.drop 1).length + (c - 1 - off)
          omega
      · rw [if_neg hat] at hrun
        by_cases hfull : c ≤ off + 2
        · rw [if_pos hfull] at hrun
          have hr := (Option.some.inj hrun).symm
          subst hr
          refine ⟨⟨_, rfl, fun i hi => ?_⟩, ?_⟩
          · rw [set_outside _ _ _ _ (by omega)]
            exact hkeep i hi
          · show st.rest.length ≤ (st.rest.drop 1).length + (c - 1 - off)
            omega
        · rw [if_neg hfull] at hrun
          obtain ⟨⟨b, hb, hbk⟩, hcount⟩ := ih (off + 1) ⟨st.rest.drop 1, st.calls + 1⟩ _ r
            (by omega) hrun
          refine ⟨⟨b, hb, fun i hi => ?_⟩, ?_⟩
          · rw [hbk i hi]
            exact hkeep i hi
          · have : (⟨st.rest.drop 1, st.calls + 1⟩ : StreamState).rest.length
                ≤ r.st.rest.length + (c - 1 - (off + 1)) := hcount
            simp only at this
            omega

/-- For every capacity `c >= 2`, `ReadLine` over a stream whose single-byte
reads deliver at most one byte stores nothing at or beyond `buf[c]` and
consumes at most `c - 1` bytes, whatever it returns. -/
theorem ReadLine_in_bounds (frag : Nat → Nat → Nat) (s : List UInt8) (c fuel : Nat)
    (buf : Buf) (r : StreamResult StreamState) (hc2 : 2 ≤ c) (hc : c < SIZE_MOD)
    (hfrag : ∀ i, frag i 1 ≤ 1)
    (hrun : ReadLine (streamReader frag) fuel ⟨s, 0⟩ (some buf) c = some r) :
    (∃ b, r.buf = some b ∧ ∀ i, c ≤ i → b i = buf i)
      ∧ s.length ≤ r.st.rest.length + (c - 1) := by
  have h := ReadLineLoop_in_bounds frag hfrag c hc fuel 0 ⟨s, 0⟩ buf r (by omega) hrun
  simpa using h

/-- C5 at its failing input: `ReadLine` with capacity 1 consumes one byte of
the stream and stores it at `buf[0]`, then stores the NUL at `buf[1]`, an
index outside a 1-byte buffer (the memory there held 255 before the call). -/
theorem ReadLine_capacity_one_overruns :
    (ReadLine wholeReader 1 ⟨[97, 98], 0⟩ (some (fun _ => 255)) 1).map
      (fun r => (r.err, r.st.rest, r.buf.map (fun m => m.load 0 3)))
      = some (error.nil, [98], some [97, 0, 255]) := by
  decide

/-! ## Socket handles -/

/-- C6, as the code has it.  On each of `TCPSocket`, `TCPListener` and
`UDPSocket`: when the handle is already closed or the OS close call of the
first `Close` succeeds, two calls of `Close` in a row return `nil` both
times, leave the handle closed, and the OS close is called once if the handle
was open and not at all otherwise; when the handle is open and the OS close
call fails, `Close` returns the OS error and leaves the handle open. -/
theorem Close_twice_idempotent (k : Kernel) (tr : List Syscall) (s : TCPSocket)
    (l : TCPListener) (u : UDPSocket) :
    ((s.m_closed = true ∨ (k tr.length (Syscall.close s.m_fd)).ret ≠ -1 →
        closeTwice (TCPSocket.Close k) s tr
          = (error.nil, ⟨error.nil, { s with m_closed := true },
              if s.m_closed then tr else tr ++ [Syscall.close s.m_fd], ()⟩))
      ∧ (s.m_closed = false → (k tr.length (Syscall.close s.m_fd)).ret = -1 →
        TCPSocket.Close k s tr
          = ⟨error.os (k tr.length (Syscall.close s.m_fd)).errno, s,
              tr ++ [Syscall.close s.m_fd], ()⟩))
    ∧ ((l.m_closed = true ∨ (k tr.length (Syscall.close l.m_fd)).ret ≠ -1 →
        closeTwice (TCPListener.Close k) l tr
          = (error.nil, ⟨error.nil, { l with m_closed := true },
              if l.m_closed then tr else tr ++ [Syscall.close l.m_fd], ()⟩))
      ∧ (l.m_closed = false → (k tr.length (Syscall.close l.m_fd)).ret = -1 →
        TCPListener.Close k l tr
          = ⟨error.os (k tr.length (Syscall.close l.m_fd)).errno, l,
              tr ++ [Syscall.close l.m_fd], ()⟩))
    ∧ ((u.m_closed = true ∨ (k tr.length (Syscall.close u.m_fd)).ret ≠ -1 →
        closeTwice (UDPSocket.Close k) u tr
          = (error.nil, ⟨error.nil, { u with m_closed := true },
              if u.m_closed then tr else tr ++ [Syscall.close u.m_fd], ()⟩))
      ∧ (u.m_closed = false → (k tr.length (Syscall.close u.m_fd)).ret = -1 →
        UDPSocket.Close k u tr
          = ⟨error.os (k tr.length (Syscall.close u.m_fd)).errno, u,
              tr ++ [Syscall.close u.m_fd], ()⟩)) := by
  refine ⟨⟨?_, ?_⟩, ⟨?_, ?_⟩, ⟨?_, ?_⟩⟩
  · intro h
    cases hc : s.m_closed with
    | true =>
      obtain ⟨fd, a, p, c, t⟩ := s
      simp only at hc
      subst hc
      simp [closeTwice, TCPSocket.Close]
    | false =>
      have hret : (k tr.length (Syscall.close s.m_fd)).ret ≠ -1 := by
        rcases h with h | h
        · rw [hc] at h; exact absurd h (by decide)
        · exact h
      simp [closeTwice, TCPSocket.Close, hc, hret]
  · intro hc hret
    simp [TCPSocket.Close, hc, hret]
  · intro h
    cases hc : l.m_closed with
    | true =>
      obtain ⟨fd, c, t⟩ := l
      simp only at hc
      subst hc
      simp [closeTwice, TCPListener.Close]
    | false =>
      have hret : (k tr.length (Syscall.close l.m_fd)).ret ≠ -1 := by
        rcases h with h | h
        · rw [hc] at h; exact absurd h (by decide)
        · exact h
      simp [closeTwice, TCPListener.Close, hc, hret]
  · intro hc hret
    simp [TCPListener.Close, hc, hret]
  · intro h
    cases hc : u.m_closed with
    | true =>
      obtain ⟨fd, a, p, c⟩ := u
      simp only at hc
      subst hc
      simp [closeTwice, UDPSocket.Close]
    | false =>
      have hret : (k tr.length (Syscall.close u.m_fd)).ret ≠ -1 := by
        rcases h with h | h
        · rw [hc] at h; exact absurd h (by decide)
        · exact h
      simp [closeTwice, UDPSocket.Close, hc, hret]
  · intro hc hret
    simp [UDPSocket.Close, hc, hret]

/-- Example of C6 as the code has it: an open `TCPSocket` closed twice when
the OS close call succeeds. -/
theorem Close_twice_idempotent_witness :
    closeTwice (TCPSocket.Close acceptingKernel) (TCPSocket.new 3 "10.0.0.1" 80) []
      = (error.nil, ⟨error.nil, ⟨3, "10.0.0.1", 80, true, 0⟩, [Syscall.close 3], ()⟩) :=
  (Close_twice_idempotent acceptingKernel [] (TCPSocket.new 3 "10.0.0.1" 80) ⟨4, false, 0⟩
    (UDPSocket.new 5)).1.1 (Or.inr (by decide))

/-- Counterexample to C6 as stated: when the OS close call fails, two calls
of `Close` on an open `TCPSocket` both return the OS error, none returns
`nil`, and the OS close is called twice on the descriptor. -/
theorem Close_twice_counterexample :
    closeTwice (TCPSocket.Close failingKernel) (TCPSocket.new 3 "10.0.0.1" 80) []
      = (error.os 5, ⟨error.os 5, TCPSocket.new 3 "10.0.0.1" 80,
          [Syscall.close 3, Syscall.close 3], ()⟩) := by
  decide

/-- C7: on a closed `TCPSocket`, `Read`, `Write`, `SetTimeout` and
`SetKeepAlive`, and on a closed `UDPSocket`, `Read`, `ReadFrom`, `Write`,
`WriteTo` and `SetTimeout`, return `illegal_state`, make no call into the
operating system, and leave the handle and the output parameters as they
were. -/
theorem closed_handle_rejects (cfg : BuildConfig) (k : Kernel) (tr : List Syscall)
    (s : TCPSocket) (u : UDPSocket) (buf : Buf) (len : Nat) (nbytes : Option Int)
    (timeoutMilliseconds : Int) (enable : Bool) (addr : String) (port : Nat)
    (hs : s.m_closed = true) (hu : u.m_closed = true) :
    TCPSocket.Read k s tr buf len nbytes = ⟨error.illegal_state, s, tr, (buf, nbytes)⟩
    ∧ TCPSocket.Write k s tr buf len nbytes = ⟨error.illegal_state, s, tr, nbytes⟩
    ∧ TCPSocket.SetTimeout cfg k s tr timeoutMilliseconds = ⟨error.illegal_state, s, tr, ()⟩
    ∧ TCPSocket.SetKeepAlive k s tr enable = ⟨error.illegal_state, s, tr, ()⟩
    ∧ UDPSocket.Read k u tr buf len nbytes = ⟨error.illegal_state, u, tr, (buf, nbytes)⟩
    ∧ UDPSocket.ReadFrom k u tr buf len nbytes addr port
        = ⟨error.illegal_state, u, tr, ⟨buf, nbytes, addr, port⟩⟩
    ∧ UDPSocket.Write k u tr buf len nbytes = ⟨error.illegal_state, u, tr, nbytes⟩
    ∧ UDPSocket.WriteTo k u tr buf len addr port nbytes = ⟨error.illegal_state, u, tr, nbytes⟩
    ∧ UDPSocket.SetTimeout k u tr timeoutMilliseconds = ⟨error.illegal_state, u, tr, ()⟩ := by
  refine ⟨?_, ?_, ?_, ?_, ?_, ?_, ?_, ?_, ?_⟩
  · simp [TCPSocket.Read, hs]
  · simp [TCPSocket.Write, hs]
  · simp [TCPSocket.SetTimeout, hs]
  · simp [TCPSocket.SetKeepAlive, hs]
  · simp [UDPSocket.Read, hu]
  · simp [UDPSocket.ReadFrom, hu]
  · simp [UDPSocket.Write, hu]
  · simp [UDPSocket.WriteTo, hu]
  · simp [UDPSocket.SetTimeout, hu]

/-- Witness of C7: a closed `TCPSocket` and a closed `UDPSocket`, over an
operating system that would accept every call. -/
theorem closed_handle_rejects_witness :
    (TCPSocket.Read acceptingKernel ⟨3, "10.0.0.1", 80, true, 0⟩ [] (fun _ => 0) 16 (some 0)).err
        = error.illegal_state
    ∧ (TCPSocket.Read acceptingKernel ⟨3, "10.0.0.1", 80, true, 0⟩ [] (fun _ => 0) 16 (some 0)).os
        = []
    ∧ (UDPSocket.WriteTo acceptingKernel ⟨5, "", 0, true⟩ [] (fun _ => 0) 16 "10.0.0.9" 53
        (some 0)) = ⟨error.illegal_state, ⟨5, "", 0, true⟩, [], some 0⟩ :=
  have h := closed_handle_rejects ⟨true, true, false, true⟩ acceptingKernel []
    ⟨3, "10.0.0.1", 80, true, 0⟩ ⟨5, "", 0, true⟩ (fun _ => 0) 16 (some 0) 250 true
    "10.0.0.9" 53 rfl rfl
  ⟨congrArg Ret.err h.1, congrArg Ret.os h.1, h.2.2.2.2.2.2.2.1⟩

/-- The POSIX half of C8: `TCPListener::Accept` of tcp_unix.cpp on a closed
listener returns `illegal_state`, calls neither `select` nor `accept`, and
leaves the output cell as it was. -/
theorem Accept_closed_posix (k : Kernel) (l : TCPListener) (tr : List Syscall)
    (cell : Option TCPSocket) (hl : l.m_closed = true) :
    TCPListener.Accept k l tr (some cell) = ⟨error.illegal_state, l, tr, some cell⟩ := by
  simp [TCPListener.Accept, hl]

/-- C8 at its failing input: `TCPListener::Accept` of the Windows backend on
a closed listener calls `accept` on the descriptor and, when the operating
system hands out a socket, returns `nil` with a new handle. -/
theorem Accept_closed_windows_calls_accept :
    windows.TCPListener.Accept error.os acceptingKernel ⟨5, true⟩ [] (some none)
      = ⟨error.nil, ⟨5, true⟩, [Syscall.accept 5], some (some ⟨7, "10.0.0.2", false⟩)⟩ := by
  decide

/-- C9, as the code has it: on a closed `TCPSocket`, `SetKeepAlivePeriod`
returns `illegal_state` for every `periodSeconds >= 1` and `illegal_argument`
for every `periodSeconds < 1`; in both cases it makes no call into the
operating system and leaves the handle as it was. -/
theorem SetKeepAlivePeriod_closed (cfg : BuildConfig) (k : Kernel) (s : TCPSocket)
    (tr : List Syscall) (periodSeconds : Int) (hs : s.m_closed = true) :
    (1 ≤ periodSeconds →
        TCPSocket.SetKeepAlivePeriod cfg k s tr periodSeconds = ⟨error.illegal_state, s, tr, ()⟩)
    ∧ (periodSeconds < 1 →
        TCPSocket.SetKeepAlivePeriod cfg k s tr periodSeconds
          = ⟨error.illegal_argument, s, tr, ()⟩) := by
  constructor
  · intro hp
    have hnot : ¬ periodSeconds < 1 := by omega
    simp [TCPSocket.SetKeepAlivePeriod, hnot, hs]
  · intro hp
    simp [TCPSocket.SetKeepAlivePeriod, hp]

/-- Witness of C9 as the code has it: period 30 on a closed handle. -/
theorem SetKeepAlivePeriod_closed_witness :
    TCPSocket.SetKeepAlivePeriod ⟨true, true, false, true⟩ acceptingKernel
        ⟨3, "10.0.0.1", 80, true, 0⟩ [] 30
      = ⟨error.illegal_state, ⟨3, "10.0.0.1", 80, true, 0⟩, [], ()⟩ :=
  (SetKeepAlivePeriod_closed ⟨true, true, false, true⟩ acceptingKernel
    ⟨3, "10.0.0.1", 80, true, 0⟩ [] 30 rfl).1 (by decide)

/-- Counterexample to C9 as stated: on a closed `TCPSocket`,
`SetKeepAlivePeriod(0)` returns `illegal_argument`, not `illegal_state`. -/
theorem SetKeepAlivePeriod_closed_counterexample :
    (TCPSocket.SetKeepAlivePeriod ⟨true, true, false, true⟩ acceptingKernel
        ⟨3, "10.0.0.1", 80, true, 0⟩ [] 0).err = error.illegal_argument
    ∧ (TCPSocket.SetKeepAlivePeriod ⟨true, true, false, true⟩ acceptingKernel
        ⟨3, "10.0.0.1", 80, true, 0⟩ [] 0).err ≠ error.illegal_state := by
  decide

/-- C10: on an open `UDPSocket`, `Write` returns `illegal_state` without a
call into the operating system when the handle has no default peer (empty
remote address and port 0, as `UDPSocket(fd)` builds it), and otherwise does
exactly what `WriteTo` does with the handle's remote address and port: same
error, same byte count, same `sendto`. -/
theorem UDPSocket_Write_default_peer (k : Kernel) (u : UDPSocket) (tr : List Syscall)
    (buf : Buf) (len : Nat) (nbytes : Option Int) (hu : u.m_closed = false) :
    (u.m_remoteAddr = "" ∧ u.m_remotePort = 0 →
        UDPSocket.Write k u tr buf len nbytes = ⟨error.illegal_state, u, tr, nbytes⟩)
    ∧ (¬ (u.m_remoteAddr = "" ∧ u.m_remotePort = 0) →
        UDPSocket.Write k u tr buf len nbytes
          = UDPSocket.WriteTo k u tr buf len u.m_remoteAddr u.m_remotePort nbytes) := by
  constructor
  · intro hp
    simp [UDPSocket.Write, hu, hp]
  · intro hp
    unfold UDPSocket.Write
    rw [if_neg (by rw [hu]; decide), if_neg hp]

/-- Witness of C10: the handle `ListenUDP` builds has no default peer. -/
theorem UDPSocket_Write_default_peer_witness :
    UDPSocket.Write acceptingKernel (UDPSocket.new 5) [] (fun _ => 0) 4 (some 0)
        = ⟨error.illegal_state, UDPSocket.new 5, [], some 0⟩
    ∧ UDPSocket.Write acceptingKernel (UDPSocket.newPeer 5 "10.0.0.9" 53) [] (fun _ => 0) 4
        (some 0)
      = ⟨error.nil, UDPSocket.newPeer 5 "10.0.0.9" 53,
          [Syscall.sendto 5 [0, 0, 0, 0] "10.0.0.9" 53], some 7⟩ :=
  ⟨(UDPSocket_Write_default_peer acceptingKernel (UDPSocket.new 5) [] (fun _ => 0) 4 (some 0)
      rfl).1 ⟨rfl, rfl⟩,
   ((UDPSocket_Write_default_peer acceptingKernel (UDPSocket.newPeer 5 "10.0.0.9" 53) []
      (fun _ => 0) 4 (some 0) rfl).2 (by decide)).trans (by decide)⟩

/-! ## `UDPSocket::ReadFrom`, `TCPListener::Accept`, `toTimeval` -/

/-- C11: on an open `UDPSocket`, with or without a default peer, `ReadFrom`
makes the one `recvfrom` call.  When it does not fail, the output address and
port are the sender's address and host-order port; a received size of 0
gives `eof` and leaves `nbytes` as it was, any other size gives `nil` and
stores the size in `nbytes`.  When it fails, `ReadFrom` returns the OS error
and leaves `nbytes`, the address and the port as they were. -/
theorem ReadFrom_captures_sender (k : Kernel) (u : UDPSocket) (tr : List Syscall) (buf : Buf)
    (len : Nat) (nbytes : Option Int) (addr : String) (port : Nat)
    (hu : u.m_closed = false) :
    (UDPSocket.ReadFrom k u tr buf len nbytes addr port).os
        = tr ++ [Syscall.recvfrom u.m_fd len]
    ∧ ((k tr.length (Syscall.recvfrom u.m_fd len)).ret ≠ -1 →
        (UDPSocket.ReadFrom k u tr buf len nbytes addr port).out.addr
            = (k tr.length (Syscall.recvfrom u.m_fd len)).addr
        ∧ (UDPSocket.ReadFrom k u tr buf len nbytes addr port).out.port
            = (k tr.length (Syscall.recvfrom u.m_fd len)).port)
    ∧ ((k tr.length (Syscall.recvfrom u.m_fd len)).ret = 0 →
        (UDPSocket.ReadFrom k u tr buf len nbytes addr port).err = error.eof
        ∧ (UDPSocket.ReadFrom k u tr buf len nbytes addr port).out.nbytes = nbytes)
    ∧ ((k tr.length (Syscall.recvfrom u.m_fd len)).ret ≠ -1 →
        (k tr.length (Syscall.recvfrom u.m_fd len)).ret ≠ 0 →
        (UDPSocket.ReadFrom k u tr buf len nbytes addr port).err = error.nil
        ∧ (UDPSocket.ReadFrom k u tr buf len nbytes addr port).out.nbytes
            = nbytes.map (fun _ => (k tr.length (Syscall.recvfrom u.m_fd len)).ret))
    ∧ ((k tr.length (Syscall.recvfrom u.m_fd len)).ret = -1 →
        (UDPSocket.ReadFrom k u tr buf len nbytes addr port).err
            = error.os (k tr.length (Syscall.recvfrom u.m_fd len)).errno
        ∧ (UDPSocket.ReadFrom k u tr buf len nbytes addr port).out.nbytes = nbytes
        ∧ (UDPSocket.ReadFrom k u tr buf len nbytes addr port).out.addr = addr
        ∧ (UDPSocket.ReadFrom k u tr buf len nbytes addr port).out.port = port) := by
  generalize hr : k tr.length (Syscall.recvfrom u.m_fd len) = r
  have hdef : UDPSocket.ReadFrom k u tr buf len nbytes addr port
      = if r.ret = -1 then
          ⟨error.os r.errno, u, tr ++ [Syscall.recvfrom u.m_fd len],
            ⟨buf.store 0 r.data, nbytes, addr, port⟩⟩
        else if r.ret = 0 then
          ⟨error.eof, u, tr ++ [Syscall.recvfrom u.m_fd len],
            ⟨buf.store 0 r.data, nbytes, r.addr, r.port⟩⟩
        else
          ⟨error.nil, u, tr ++ [Syscall.recvfrom u.m_fd len],
            ⟨buf.store 0 r.data, nbytes.map (fun _ => r.ret), r.addr, r.port⟩⟩ := by
    simp [UDPSocket.ReadFrom, hu, hr]
  rw [hdef]
  refine ⟨?_, ?_, ?_, ?_, ?_⟩
  · split_ifs <;> rfl
  · intro h1
    rw [if_neg h1]
    split_ifs <;> exact ⟨rfl, rfl⟩
  · intro h0
    have h1 : r.ret ≠ -1 := by omega
    rw [if_neg h1, if_pos h0]
    exact ⟨rfl, rfl⟩
  · intro h1 h0
    rw [if_neg h1, if_neg h0]
    exact ⟨rfl, rfl⟩
  · intro h1
    rw [if_pos h1]
    exact ⟨rfl, rfl, rfl, rfl⟩

/-- Witness of C11: a socket built without a default peer receives seven
bytes from 10.0.0.2:4000. -/
theorem ReadFrom_captures_sender_witness :
    (UDPSocket.ReadFrom acceptingKernel (UDPSocket.new 5) [] (fun _ => 0) 16 (some 0) "" 0).err
        = error.nil
    ∧ (UDPSocket.ReadFrom acceptingKernel (UDPSocket.new 5) [] (fun _ => 0) 16
        (some 0) "" 0).out.nbytes = some 7
    ∧ (UDPSocket.ReadFrom acceptingKernel (UDPSocket.new 5) [] (fun _ => 0) 16
        (some 0) "" 0).out.addr = "10.0.0.2"
    ∧ (UDPSocket.ReadFrom acceptingKernel (UDPSocket.new 5) [] (fun _ => 0) 16
        (some 0) "" 0).out.port = 4000 :=
  have h := ReadFrom_captures_sender acceptingKernel (UDPSocket.new 5) [] (fun _ => 0) 16
    (some 0) "" 0 rfl
  ⟨(h.2.2.2.1 (by decide) (by decide)).1, (h.2.2.2.1 (by decide) (by decide)).2,
    (h.2.1 (by decide)).1, (h.2.1 (by decide)).2⟩

/-- The four outcomes of `waitUntilReady`, by the answers of `select` and
`getsockopt`. -/
theorem waitUntilReady_eq (k : Kernel) (tr : List Syscall) (fd : Int) (r w e : Bool)
    (ms : Int) :
    waitUntilReady k tr fd r w e ms
      = if (k tr.length (selectCall fd r w e ms)).ret = -1 then
          (error.os (k tr.length (selectCall fd r w e ms)).errno, tr ++ [selectCall fd r w e ms])
        else if (k tr.length (selectCall fd r w e ms)).ret = 0 then
          (error.timedout, tr ++ [selectCall fd r w e ms])
        else if soErrAfter (k (tr.length + 1) (Syscall.getsockopt fd SockOpt.SO_ERROR)) ≠ 0 then
          (error.os (soErrAfter (k (tr.length + 1) (Syscall.getsockopt fd SockOpt.SO_ERROR))),
            tr ++ [selectCall fd r w e ms, Syscall.getsockopt fd SockOpt.SO_ERROR])
        else
          (error.nil, tr ++ [selectCall fd r w e ms, Syscall.getsockopt fd SockOpt.SO_ERROR]) := by
  simp only [waitUntilReady, selectCall, soErrAfter, List.length_append, List.length_singleton,
    List.append_assoc, List.singleton_append]

/-- Trace and result of `waitUntilReady` when `select` reports no event. -/
theorem waitUntilReady_timedout (k : Kernel) (tr : List Syscall) (fd : Int) (r w e : Bool)
    (ms : Int) (h0 : (k tr.length (selectCall fd r w e ms)).ret = 0) :
    waitUntilReady k tr fd r w e ms = (error.timedout, tr ++ [selectCall fd r w e ms]) := by
  rw [waitUntilReady_eq, if_neg (by omega), if_pos h0]

/-- The calls `waitUntilReady` makes: `select`, then `getsockopt(SO_ERROR)`
when `select` reported an event. -/
theorem waitUntilReady_trace (k : Kernel) (tr : List Syscall) (fd : Int) (r w e : Bool)
    (ms : Int) :
    (waitUntilReady k tr fd r w e ms).2 = tr ++ [selectCall fd r w e ms]
    ∨ (waitUntilReady k tr fd r w e ms).2
        = tr ++ [selectCall fd r w e ms, Syscall.getsockopt fd SockOpt.SO_ERROR] := by
  rw [waitUntilReady_eq]
  split_ifs
  · left; rfl
  · left; rfl
  · right; rfl
  · right; rfl

/-- The calls `~TCPSocket` makes: `close(m_fd)` unless the handle is closed. -/
theorem TCPSocket_destroy_eq (k : Kernel) (cell : Option TCPSocket) (tr : List Syscall) :
    TCPSocket.destroy k cell tr
      = tr ++ closeCalls (cell.map (fun h => (h.m_closed, h.m_fd))) := by
  cases cell with
  | none => simp [TCPSocket.destroy, closeCalls]
  | some h =>
    cases hc : h.m_closed with
    | true => simp [TCPSocket.destroy, TCPSocket.Close, closeCalls, hc]
    | false =>
      by_cases hr : (k tr.length (Syscall.close h.m_fd)).ret = -1
      · simp [TCPSocket.destroy, TCPSocket.Close, closeCalls, hc, hr]
      · simp [TCPSocket.destroy, TCPSocket.Close, closeCalls, hc, hr]

/-- The calls `~TCPListener` makes: `close(m_fd)` unless the listener is
closed. -/
theorem TCPListener_destroy_eq (k : Kernel) (cell : Option TCPListener) (tr : List Syscall) :
    TCPListener.destroy k cell tr
      = tr ++ closeCalls (cell.map (fun l => (l.m_closed, l.m_fd))) := by
  cases cell with
  | none => simp [TCPListener.destroy, closeCalls]
  | some l =>
    cases hc : l.m_closed with
    | true => simp [TCPListener.destroy, TCPListener.Close, closeCalls, hc]
    | false =>
      by_cases hr : (k tr.length (Syscall.close l.m_fd)).ret = -1
      · simp [TCPListener.destroy, TCPListener.Close, closeCalls, hc, hr]
      · simp [TCPListener.destroy, TCPListener.Close, closeCalls, hc, hr]

/-- The calls `~UDPSocket` makes: `closesocket(m_fd)` unless the handle is
closed. -/
theorem UDPSocket_destroy_eq (k : Kernel) (cell : Option UDPSocket) (tr : List Syscall) :
    UDPSocket.destroy k cell tr
      = tr ++ closeCalls (cell.map (fun h => (h.m_closed, h.m_fd))) := by
  cases cell with
  | none => simp [UDPSocket.destroy, closeCalls]
  | some h =>
    cases hc : h.m_closed with
    | true => simp [UDPSocket.destroy, UDPSocket.Close, closeCalls, hc]
    | false =>
      by_cases hr : (k tr.length (Syscall.close h.m_fd)).ret = -1
      · simp [UDPSocket.destroy, UDPSocket.Close, closeCalls, hc, hr]
      · simp [UDPSocket.destroy, UDPSocket.Close, closeCalls, hc, hr]

/-- The two outcomes of the part of `Accept` from the `accept` call on. -/
theorem TCPListener.acceptNow_eq (k : Kernel) (l : TCPListener) (tr : List Syscall)
    (cell : Option TCPSocket) :
    TCPListener.acceptNow k l tr cell
      = if (k tr.length (Syscall.accept l.m_fd)).ret = -1 then
          ⟨error.os (k tr.length (Syscall.accept l.m_fd)).errno, l,
            tr ++ [Syscall.accept l.m_fd], some cell⟩
        else
          ⟨error.nil, l,
            tr ++ [Syscall.accept l.m_fd] ++ closeCalls (cell.map (fun h => (h.m_closed, h.m_fd))),
            some (some (TCPSocket.new (k tr.length (Syscall.accept l.m_fd)).ret
              (k tr.length (Syscall.accept l.m_fd)).addr
              (k tr.length (Syscall.accept l.m_fd)).port))⟩ := by
  simp only [TCPListener.acceptNow, TCPSocket_destroy_eq]

/-- C14: `TCPListener::Accept` on an open listener; `sel`, `gso` are the
answers of the operating system to the `select` and the `getsockopt` of the
readiness wait, `acc0` and `acc2` its answers to `accept` made as the first
call and made after the wait.  With a stored timeout `> 0` the first call is
the `select` for read-readiness with that timeout; when `select` reports no
event `Accept` returns `timed_out` having made no other call and leaves the
output cell as it was; a failing wait returns its error the same way; after a
successful wait `accept` is called.  With a stored timeout `<= 0` the first
call is `accept`.  In both cases a failing `accept` gives `os_error(errno)`
with the cell as it was, and a successful `accept` gives `nil` and a new
handle on the descriptor returned, with the peer address and host-order port
`accept` reported (the handle the cell owned before is destroyed, which
closes its descriptor unless it was closed). -/
theorem Accept_honours_timeout (k : Kernel) (l : TCPListener) (tr : List Syscall)
    (cell : Option TCPSocket) (sel gso acc0 acc2 : SysRet) (hl : l.m_closed = false)
    (hsel : k tr.length (Syscall.select (l.m_fd + 1) true false false
      (toTimeval l.m_timeoutMilliseconds).tv_sec
      (toTimeval l.m_timeoutMilliseconds).tv_usec) = sel)
    (hgso : k (tr.length + 1) (Syscall.getsockopt l.m_fd SockOpt.SO_ERROR) = gso)
    (hacc0 : k tr.length (Syscall.accept l.m_fd) = acc0)
    (hacc2 : k (tr.length + 2) (Syscall.accept l.m_fd) = acc2) :
    (0 < l.m_timeoutMilliseconds →
        (∃ rest, (TCPListener.Accept k l tr (some cell)).os
            = tr ++ Syscall.select (l.m_fd + 1) true false false
                (toTimeval l.m_timeoutMilliseconds).tv_sec
                (toTimeval l.m_timeoutMilliseconds).tv_usec :: rest)
        ∧ (sel.ret = 0 →
            TCPListener.Accept k l tr (some cell)
              = ⟨error.timedout, l, tr ++ [Syscall.select (l.m_fd + 1) true false false
                  (toTimeval l.m_timeoutMilliseconds).tv_sec
                  (toTimeval l.m_timeoutMilliseconds).tv_usec], some cell⟩)
        ∧ (sel.ret = -1 →
            TCPListener.Accept k l tr (some cell)
              = ⟨error.os sel.errno, l, tr ++ [Syscall.select (l.m_fd + 1) true false false
                  (toTimeval l.m_timeoutMilliseconds).tv_sec
                  (toTimeval l.m_timeoutMilliseconds).tv_usec], some cell⟩)
        ∧ (sel.ret ≠ -1 → sel.ret ≠ 0 → soErrAfter gso ≠ 0 →
            TCPListener.Accept k l tr (some cell)
              = ⟨error.os (soErrAfter gso), l, tr ++ [Syscall.select (l.m_fd + 1) true false false
                  (toTimeval l.m_timeoutMilliseconds).tv_sec
                  (toTimeval l.m_timeoutMilliseconds).tv_usec,
                  Syscall.getsockopt l.m_fd SockOpt.SO_ERROR], some cell⟩)
        ∧ (sel.ret ≠ -1 → sel.ret ≠ 0 → soErrAfter gso = 0 → acc2.ret = -1 →
            TCPListener.Accept k l tr (some cell)
              = ⟨error.os acc2.errno, l, tr ++ [Syscall.select (l.m_fd + 1) true false false
                  (toTimeval l.m_timeoutMilliseconds).tv_sec
                  (toTimeval l.m_timeoutMilliseconds).tv_usec,
                  Syscall.getsockopt l.m_fd SockOpt.SO_ERROR, Syscall.accept l.m_fd],
                  some cell⟩)
        ∧ (sel.ret ≠ -1 → sel.ret ≠ 0 → soErrAfter gso = 0 → acc2.ret ≠ -1 →
            TCPListener.Accept k l tr (some cell)
              = ⟨error.nil, l, tr ++ [Syscall.select (l.m_fd + 1) true false false
                  (toTimeval l.m_timeoutMilliseconds).tv_sec
                  (toTimeval l.m_timeoutMilliseconds).tv_usec,
                  Syscall.getsockopt l.m_fd SockOpt.SO_ERROR, Syscall.accept l.m_fd]
                  ++ closeCalls (cell.map (fun h => (h.m_closed, h.m_fd))),
                  some (some (TCPSocket.new acc2.ret acc2.addr acc2.port))⟩))
    ∧ (l.m_timeoutMilliseconds ≤ 0 →
        (acc0.ret = -1 →
            TCPListener.Accept k l tr (some cell)
              = ⟨error.os acc0.errno, l, tr ++ [Syscall.accept l.m_fd], some cell⟩)
        ∧ (acc0.ret ≠ -1 →
            TCPListener.Accept k l tr (some cell)
              = ⟨error.nil, l, tr ++ [Syscall.accept l.m_fd]
                  ++ closeCalls (cell.map (fun h => (h.m_closed, h.m_fd))),
                  some (some (TCPSocket.new acc0.ret acc0.addr acc0.port))⟩)) := by
  have hsel2 : k tr.length (selectCall l.m_fd true false false l.m_timeoutMilliseconds) = sel :=
    hsel
  constructor
  · intro ht
    have hdef : TCPListener.Accept k l tr (some cell)
        = if sel.ret = -1 then
            ⟨error.os sel.errno, l,
              tr ++ [selectCall l.m_fd true false false l.m_timeoutMilliseconds], some cell⟩
          else if sel.ret = 0 then
            ⟨error.timedout, l,
              tr ++ [selectCall l.m_fd true false false l.m_timeoutMilliseconds], some cell⟩
          else if soErrAfter gso ≠ 0 then
            ⟨error.os (soErrAfter gso), l,
              tr ++ [selectCall l.m_fd true false false l.m_timeoutMilliseconds,
                Syscall.getsockopt l.m_fd SockOpt.SO_ERROR], some cell⟩
          else if acc2.ret = -1 then
            ⟨error.os acc2.errno, l,
              tr ++ [selectCall l.m_fd true false false l.m_timeoutMilliseconds,
                Syscall.getsockopt l.m_fd SockOpt.SO_ERROR, Syscall.accept l.m_fd], some cell⟩
          else
            ⟨error.nil, l,
              tr ++ [selectCall l.m_fd true false false l.m_timeoutMilliseconds,
                Syscall.getsockopt l.m_fd SockOpt.SO_ERROR, Syscall.accept l.m_fd]
                ++ closeCalls (cell.map (fun h => (h.m_closed, h.m_fd))),
              some (some (TCPSocket.new acc2.ret acc2.addr acc2.port))⟩ := by
      simp only [TCPListener.Accept, hl, Bool.false_eq_true, if_false, gt_iff_lt, if_pos ht,
        waitUntilReady_eq, hsel2, hgso, TCPListener.acceptNow_eq]
      split_ifs <;>
        simp_all [List.length_append, hacc2]
    rw [hdef]
    refine ⟨?_, ?_, ?_, ?_, ?_, ?_⟩
    · split_ifs
      · exact ⟨[], rfl⟩
      · exact ⟨[], rfl⟩
      · exact ⟨[Syscall.getsockopt l.m_fd SockOpt.SO_ERROR], by simp [selectCall]⟩
      · exact ⟨[Syscall.getsockopt l.m_fd SockOpt.SO_ERROR, Syscall.accept l.m_fd],
          by simp [selectCall]⟩
      · exact ⟨[Syscall.getsockopt l.m_fd SockOpt.SO_ERROR, Syscall.accept l.m_fd]
          ++ closeCalls (cell.map (fun h => (h.m_closed, h.m_fd))), by simp [selectCall]⟩
    · intro h0
      rw [if_neg (by omega), if_pos h0]
      rfl
    · intro h1
      rw [if_pos h1]
      rfl
    · intro h1 h0 hso
      rw [if_neg h1, if_neg h0, if_pos hso]
      rfl
    · intro h1 h0 hso ha
      rw [if_neg h1, if_neg h0, if_neg (by simpa using hso), if_pos ha]
      rfl
    · intro h1 h0 hso ha
      rw [if_neg h1, if_neg h0, if_neg (by simpa using hso), if_neg ha]
      rfl
  · intro ht
    have hnot : ¬ (l.m_timeoutMilliseconds > 0) := by omega
    have hdef : TCPListener.Accept k l tr (some cell) = TCPListener.acceptNow k l tr cell := by
      simp only [TCPListener.Accept, hl, Bool.false_eq_true, if_false, if_neg hnot]
    rw [hdef, TCPListener.acceptNow_eq, hacc0]
    constructor
    · intro ha
      rw [if_pos ha]
    · intro ha
      rw [if_neg ha]

/-- Witness of C14: a listener with a 250 ms accept-timeout, over an
operating system whose `select` reports no event. -/
theorem Accept_honours_timeout_witness :
    TCPListener.Accept (fun _ _ => ⟨0, 0, [], "", 0, 0⟩) ⟨4, false, 250⟩ [] (some none)
      = ⟨error.timedout, ⟨4, false, 250⟩, [Syscall.select 5 true false false 0 250000],
          some none⟩ :=
  ((Accept_honours_timeout (fun _ _ => ⟨0, 0, [], "", 0, 0⟩) ⟨4, false, 250⟩ [] none
    ⟨0, 0, [], "", 0, 0⟩ ⟨0, 0, [], "", 0, 0⟩ ⟨0, 0, [], "", 0, 0⟩ ⟨0, 0, [], "", 0, 0⟩
    rfl rfl rfl rfl rfl).1 (by decide)).2.1 rfl

/-- Example of C14 by evaluation: with no accept-timeout, a successful
`accept` is the first call and gives `nil` and a handle on the descriptor
returned, with the peer address and port; the open handle the cell owned
before is destroyed, which closes its descriptor. -/
theorem Accept_success_example :
    TCPListener.Accept acceptingKernel ⟨4, false, 0⟩ [] (some (some ⟨9, "10.0.0.8", 81, false, 0⟩))
      = ⟨error.nil, ⟨4, false, 0⟩, [Syscall.accept 4, Syscall.close 9],
          some (some ⟨7, "10.0.0.2", 4000, false, 0⟩)⟩ := by
  decide

/-- C16: `toTimeval` on `ms > 0` gives `tv_sec = ms / 1000` and
`tv_usec = (ms mod 1000) * 1000`, with `0 <= tv_usec < 1000000` and
`tv_sec * 1000000 + tv_usec = ms * 1000`; on `ms <= 0` it gives 0 and 0. -/
theorem toTimeval_exact (ms : Int) :
    (0 < ms →
        (toTimeval ms).tv_sec = ms / 1000
        ∧ (toTimeval ms).tv_usec = ms % 1000 * 1000
        ∧ 0 ≤ (toTimeval ms).tv_usec
        ∧ (toTimeval ms).tv_usec < 1000000
        ∧ (toTimeval ms).tv_sec * 1000000 + (toTimeval ms).tv_usec = ms * 1000)
    ∧ (ms ≤ 0 → (toTimeval ms).tv_sec = 0 ∧ (toTimeval ms).tv_usec = 0) := by
  constructor
  · intro h
    have hs : (toTimeval ms).tv_sec = ms / 1000 := by
      simp only [toTimeval, gt_iff_lt, if_pos h]
      exact Int.tdiv_eq_ediv (by omega) (by omega)
    have hu : (toTimeval ms).tv_usec = ms % 1000 * 1000 := by
      simp only [toTimeval, gt_iff_lt, if_pos h]
      rw [Int.tmod_eq_emod (by omega) (by omega)]
    rw [hs, hu]
    refine ⟨rfl, rfl, ?_, ?_, ?_⟩ <;> omega
  · intro h
    have hnot : ¬ (ms > 0) := by omega
    simp only [toTimeval, if_neg hnot]
    exact ⟨rfl, rfl⟩

/-- Witness of C16: 2500 ms is 2 s and 500000 microseconds. -/
theorem toTimeval_exact_witness :
    (toTimeval 2500).tv_sec = 2500 / 1000
    ∧ (toTimeval 2500).tv_usec = 2500 % 1000 * 1000
    ∧ 0 ≤ (toTimeval 2500).tv_usec
    ∧ (toTimeval 2500).tv_usec < 1000000
    ∧ (toTimeval 2500).tv_sec * 1000000 + (toTimeval 2500).tv_usec = 2500 * 1000 :=
  (toTimeval_exact 2500).1 (by decide)

/-! ## `ConnectTCP`, `ListenTCP`, `ListenUDP` -/

/-- The two outcomes of the blocking branch of `ConnectTCP`. -/
theorem ConnectTCP.blocking_eq (k : Kernel) (tr : List Syscall) (fd : Int) (ip : String)
    (port : Nat) (cell : Option TCPSocket) :
    ConnectTCP.blocking k tr fd ip port cell
      = if (k tr.length (Syscall.connect fd ip port)).ret = -1 then
          ⟨error.os (k tr.length (Syscall.connect fd ip port)).errno, (),
            tr ++ [Syscall.connect fd ip port, Syscall.close fd], some cell⟩
        else
          ⟨error.nil, (),
            tr ++ [Syscall.connect fd ip port]
              ++ closeCalls (cell.map (fun h => (h.m_closed, h.m_fd))),
            some (some (TCPSocket.new fd ip port))⟩ := by
  simp only [ConnectTCP.blocking, TCPSocket_destroy_eq, List.append_assoc,
    List.singleton_append]

/-- The five outcomes of the non-blocking branch of `ConnectTCP`, by the
answers of `connect`, `select` and `getsockopt`. -/
theorem ConnectTCP.nonBlocking_eq (EINPROGRESS : Int) (k : Kernel) (tr : List Syscall)
    (fd : Int) (ip : String) (port : Nat) (ms : Int) (cell : Option TCPSocket) :
    ConnectTCP.nonBlocking EINPROGRESS k tr fd ip port ms cell
      = if (k (tr.length + 1) (Syscall.connect fd ip port)).ret = -1
            ∧ (k (tr.length + 1) (Syscall.connect fd ip port)).errno ≠ EINPROGRESS then
          ⟨error.os (k (tr.length + 1) (Syscall.connect fd ip port)).errno, (),
            tr ++ [Syscall.ioctl fd kNonBlockingMode, Syscall.connect fd ip port,
              Syscall.close fd], some cell⟩
        else if (k (tr.length + 2) (selectCall fd false true false ms)).ret = -1 then
          ⟨error.os (k (tr.length + 2) (selectCall fd false true false ms)).errno, (),
            tr ++ [Syscall.ioctl fd kNonBlockingMode, Syscall.connect fd ip port,
              selectCall fd false true false ms, Syscall.close fd], some cell⟩
        else if (k (tr.length + 2) (selectCall fd false true false ms)).ret = 0 then
          ⟨error.timedout, (),
            tr ++ [Syscall.ioctl fd kNonBlockingMode, Syscall.connect fd ip port,
              selectCall fd false true false ms, Syscall.close fd], some cell⟩
        else if soErrAfter (k (tr.length + 3) (Syscall.getsockopt fd SockOpt.SO_ERROR)) ≠ 0 then
          ⟨error.os (soErrAfter (k (tr.length + 3) (Syscall.getsockopt fd SockOpt.SO_ERROR))), (),
            tr ++ [Syscall.ioctl fd kNonBlockingMode, Syscall.connect fd ip port,
              selectCall fd false true false ms, Syscall.getsockopt fd SockOpt.SO_ERROR,
              Syscall.close fd], some cell⟩
        else
          ⟨error.nil, (),
            tr ++ [Syscall.ioctl fd kNonBlockingMode, Syscall.connect fd ip port,
              selectCall fd false true false ms, Syscall.getsockopt fd SockOpt.SO_ERROR,
              Syscall.ioctl fd kBlockingMode]
              ++ closeCalls (cell.map (fun h => (h.m_closed, h.m_fd))),
            some (some (TCPSocket.new fd ip port))⟩ := by
  unfold ConnectTCP.nonBlocking
  simp only [waitUntilReady_eq, TCPSocket_destroy_eq, List.length_append,
    List.length_singleton, List.append_assoc, List.singleton_append, List.cons_append,
    List.nil_append]
  split_ifs <;> simp_all

/-- The outcomes of `ConnectTCP` before the two branches: a null output
pointer, a failing resolver, a failing `socket`. -/
theorem ConnectTCP_eq_branch (EINPROGRESS : Int) (LookupAddress : String → error × String)
    (k : Kernel) (tr : List Syscall) (host : String) (port : Nat) (ms : Int)
    (cell : Option TCPSocket) (hres : (LookupAddress host).1 = error.nil)
    (hfd : (k (tr.length + 1) (Syscall.socket SockType.SOCK_STREAM)).ret ≠ -1) :
    ConnectTCP EINPROGRESS LookupAddress k tr host port ms (some cell)
      = if ms ≤ 0 then
          ConnectTCP.blocking k (tr ++ [Syscall.init, Syscall.socket SockType.SOCK_STREAM])
            (k (tr.length + 1) (Syscall.socket SockType.SOCK_STREAM)).ret
            (LookupAddress host).2 port cell
        else
          ConnectTCP.nonBlocking EINPROGRESS k
            (tr ++ [Syscall.init, Syscall.socket SockType.SOCK_STREAM])
            (k (tr.length + 1) (Syscall.socket SockType.SOCK_STREAM)).ret
            (LookupAddress host).2 port ms cell := by
  simp only [ConnectTCP, hres, ne_eq, not_true_eq_false, if_false, List.length_append,
    List.length_singleton, if_neg hfd, List.append_assoc, List.singleton_append]

/-- `ConnectTCP` when the resolver fails. -/
theorem ConnectTCP_eq_resolver_failure (EINPROGRESS : Int)
    (LookupAddress : String → error × String) (k : Kernel) (tr : List Syscall) (host : String)
    (port : Nat) (ms : Int) (cell : Option TCPSocket)
    (hres : (LookupAddress host).1 ≠ error.nil) :
    ConnectTCP EINPROGRESS LookupAddress k tr host port ms (some cell)
      = ⟨(LookupAddress host).1, (), tr ++ [Syscall.init], some cell⟩ := by
  simp [ConnectTCP, hres]

/-- `ConnectTCP` when `socket` fails. -/
theorem ConnectTCP_eq_socket_failure (EINPROGRESS : Int)
    (LookupAddress : String → error × String) (k : Kernel) (tr : List Syscall) (host : String)
    (port : Nat) (ms : Int) (cell : Option TCPSocket)
    (hres : (LookupAddress host).1 = error.nil)
    (hfd : (k (tr.length + 1) (Syscall.socket SockType.SOCK_STREAM)).ret = -1) :
    ConnectTCP EINPROGRESS LookupAddress k tr host port ms (some cell)
      = ⟨error.os (k (tr.length + 1) (Syscall.socket SockType.SOCK_STREAM)).errno, (),
          tr ++ [Syscall.init, Syscall.socket SockType.SOCK_STREAM], some cell⟩ := by
  simp [ConnectTCP, hres, hfd]

/-- `ConnectTCP` with a timeout `> 0`, once the resolver has succeeded and the
socket is created: the five outcomes, with the calls made. -/
theorem ConnectTCP_eq_nonBlocking (EINPROGRESS : Int) (LookupAddress : String → error × String)
    (k : Kernel) (tr : List Syscall) (host ip : String) (port : Nat) (ms : Int)
    (cell : Option TCPSocket) (fd : Int) (hms : 0 < ms)
    (hres : LookupAddress host = (error.nil, ip))
    (hsock : (k (tr.length + 1) (Syscall.socket SockType.SOCK_STREAM)).ret = fd)
    (hfd : fd ≠ -1) :
    ConnectTCP EINPROGRESS LookupAddress k tr host port ms (some cell)
      = if (k (tr.length + 3) (Syscall.connect fd ip port)).ret = -1
            ∧ (k (tr.length + 3) (Syscall.connect fd ip port)).errno ≠ EINPROGRESS then
          ⟨error.os (k (tr.length + 3) (Syscall.connect fd ip port)).errno, (),
            tr ++ [Syscall.init, Syscall.socket SockType.SOCK_STREAM,
              Syscall.ioctl fd kNonBlockingMode, Syscall.connect fd ip port,
              Syscall.close fd], some cell⟩
        else if (k (tr.length + 4) (selectCall fd false true false ms)).ret = -1 then
          ⟨error.os (k (tr.length + 4) (selectCall fd false true false ms)).errno, (),
            tr ++ [Syscall.init, Syscall.socket SockType.SOCK_STREAM,
              Syscall.ioctl fd kNonBlockingMode, Syscall.connect fd ip port,
              selectCall fd false true false ms, Syscall.close fd], some cell⟩
        else if (k (tr.length + 4) (selectCall fd false true false ms)).ret = 0 then
          ⟨error.timedout, (),
            tr ++ [Syscall.init, Syscall.socket SockType.SOCK_STREAM,
              Syscall.ioctl fd kNonBlockingMode, Syscall.connect fd ip port,
              selectCall fd false true false ms, Syscall.close fd], some cell⟩
        else if soErrAfter (k (tr.length + 5) (Syscall.getsockopt fd SockOpt.SO_ERROR)) ≠ 0 then
          ⟨error.os (soErrAfter (k (tr.length + 5) (Syscall.getsockopt fd SockOpt.SO_ERROR))), (),
            tr ++ [Syscall.init, Syscall.socket SockType.SOCK_STREAM,
              Syscall.ioctl fd kNonBlockingMode, Syscall.connect fd ip port,
              selectCall fd false true false ms, Syscall.getsockopt fd SockOpt.SO_ERROR,
              Syscall.close fd], some cell⟩
        else
          ⟨error.nil, (),
            tr ++ [Syscall.init, Syscall.socket SockType.SOCK_STREAM,
              Syscall.ioctl fd kNonBlockingMode, Syscall.connect fd ip port,
              selectCall fd false true false ms, Syscall.getsockopt fd SockOpt.SO_ERROR,
              Syscall.ioctl fd kBlockingMode]
              ++ closeCalls (cell.map (fun h => (h.m_closed, h.m_fd))),
            some (some (TCPSocket.new fd ip port))⟩ := by
  have h1 : (LookupAddress host).1 = error.nil := by rw [hres]
  have h2 : (LookupAddress host).2 = ip := by rw [hres]
  have hlen : (tr ++ [Syscall.init, Syscall.socket SockType.SOCK_STREAM]).length
      = tr.length + 2 := by simp
  rw [ConnectTCP_eq_branch EINPROGRESS LookupAddress k tr host port ms cell h1
    (by rw [hsock]; exact hfd), if_neg (by omega), ConnectTCP.nonBlocking_eq, hsock, h2, hlen]
  simp only [List.append_assoc, List.cons_append, List.nil_append, Nat.add_assoc,
    Nat.reduceAdd]

/-- `ConnectTCP` with a timeout `<= 0`, once the resolver has succeeded and
the socket is created: the two outcomes, with the calls made. -/
theorem ConnectTCP_eq_blocking (EINPROGRESS : Int) (LookupAddress : String → error × String)
    (k : Kernel) (tr : List Syscall) (host ip : String) (port : Nat) (ms : Int)
    (cell : Option TCPSocket) (fd : Int) (hms : ms ≤ 0)
    (hres : LookupAddress host = (error.nil, ip))
    (hsock : (k (tr.length + 1) (Syscall.socket SockType.SOCK_STREAM)).ret = fd)
    (hfd : fd ≠ -1) :
    ConnectTCP EINPROGRESS LookupAddress k tr host port ms (some cell)
      = if (k (tr.length + 2) (Syscall.connect fd ip port)).ret = -1 then
          ⟨error.os (k (tr.length + 2) (Syscall.connect fd ip port)).errno, (),
            tr ++ [Syscall.init, Syscall.socket SockType.SOCK_STREAM,
              Syscall.connect fd ip port, Syscall.close fd], some cell⟩
        else
          ⟨error.nil, (),
            tr ++ [Syscall.init, Syscall.socket SockType.SOCK_STREAM,
              Syscall.connect fd ip port]
              ++ closeCalls (cell.map (fun h => (h.m_closed, h.m_fd))),
            some (some (TCPSocket.new fd ip port))⟩ := by
  have h1 : (LookupAddress host).1 = error.nil := by rw [hres]
  have h2 : (LookupAddress host).2 = ip := by rw [hres]
  have hlen : (tr ++ [Syscall.init, Syscall.socket SockType.SOCK_STREAM]).length
      = tr.length + 2 := by simp
  rw [ConnectTCP_eq_branch EINPROGRESS LookupAddress k tr host port ms cell h1
    (by rw [hsock]; exact hfd), if_pos hms, ConnectTCP.blocking_eq, hsock, h2, hlen]
  simp only [List.append_assoc, List.cons_append, List.nil_append]

/-- C12: `ConnectTCP` of the POSIX backend with a timeout `> 0`, for every
output pointer, resolver and behaviour of the operating system; `fd` is what
`socket` returned, `conn`, `sel` and `gso` are the answers of the operating
system to `connect`, to the `select` of the readiness wait and to
`getsockopt(SO_ERROR)`.  It returns `nil` exactly when the output pointer is
not null, the resolver succeeded, the socket was created, `connect`
succeeded or reported `EINPROGRESS`, `select` returned neither `-1` nor `0`
(it reported an event), and the socket error read is zero.  A `connect`
failing with another code gives `os_error` of that code; a failing `select`
gives `os_error(errno)`; a `select` reporting no event gives `timed_out`; a
non-zero socket error gives `os_error` of it.  Before that, a null output
pointer gives `illegal_argument`, a failing resolver its own error and a
failing `socket` `os_error(errno)`.  The calls made are `init`, `socket`,
`ioctl`, `connect`, then `select` once `connect` has not failed, then
`getsockopt` once `select` has reported an event. -/
theorem ConnectTCP_timeout_outcomes (EINPROGRESS : Int)
    (LookupAddress : String → error × String) (k : Kernel) (tr : List Syscall)
    (host : String) (port : Nat) (ms : Int) (clientSock : Option (Option TCPSocket))
    (fd : Int) (conn sel gso : SysRet) (hms : 0 < ms)
    (hsock : (k (tr.length + 1) (Syscall.socket SockType.SOCK_STREAM)).ret = fd)
    (hconn : k (tr.length + 3) (Syscall.connect fd (LookupAddress host).2 port) = conn)
    (hsel : k (tr.length + 4) (Syscall.select (fd + 1) false true false (toTimeval ms).tv_sec
      (toTimeval ms).tv_usec) = sel)
    (hgso : k (tr.length + 5) (Syscall.getsockopt fd SockOpt.SO_ERROR) = gso) :
    ((ConnectTCP EINPROGRESS LookupAddress k tr host port ms clientSock).err = error.nil ↔
        clientSock ≠ none ∧ (LookupAddress host).1 = error.nil ∧ fd ≠ -1
          ∧ (conn.ret ≠ -1 ∨ conn.errno = EINPROGRESS) ∧ sel.ret ≠ -1 ∧ sel.ret ≠ 0
          ∧ soErrAfter gso = 0)
    ∧ (clientSock = none →
        (ConnectTCP EINPROGRESS LookupAddress k tr host port ms clientSock).err
          = error.illegal_argument)
    ∧ (clientSock ≠ none → (LookupAddress host).1 ≠ error.nil →
        (ConnectTCP EINPROGRESS LookupAddress k tr host port ms clientSock).err
          = (LookupAddress host).1)
    ∧ (clientSock ≠ none → (LookupAddress host).1 = error.nil → fd = -1 →
        (ConnectTCP EINPROGRESS LookupAddress k tr host port ms clientSock).err
          = error.os (k (tr.length + 1) (Syscall.socket SockType.SOCK_STREAM)).errno)
    ∧ (clientSock ≠ none → (LookupAddress host).1 = error.nil → fd ≠ -1 →
        (conn.ret = -1 → conn.errno ≠ EINPROGRESS →
          (ConnectTCP EINPROGRESS LookupAddress k tr host port ms clientSock).err
            = error.os conn.errno)
        ∧ (conn.ret ≠ -1 ∨ conn.errno = EINPROGRESS → sel.ret = -1 →
          (ConnectTCP EINPROGRESS LookupAddress k tr host port ms clientSock).err
            = error.os sel.errno)
        ∧ (conn.ret ≠ -1 ∨ conn.errno = EINPROGRESS → sel.ret = 0 →
          (ConnectTCP EINPROGRESS LookupAddress k tr host port ms clientSock).err
            = error.timedout)
        ∧ (conn.ret ≠ -1 ∨ conn.errno = EINPROGRESS → sel.ret ≠ -1 → sel.ret ≠ 0 →
          soErrAfter gso ≠ 0 →
          (ConnectTCP EINPROGRESS LookupAddress k tr host port ms clientSock).err
            = error.os (soErrAfter gso))
        ∧ (∃ rest, (ConnectTCP EINPROGRESS LookupAddress k tr host port ms clientSock).os
            = tr ++ [Syscall.init, Syscall.socket SockType.SOCK_STREAM,
                Syscall.ioctl fd kNonBlockingMode,
                Syscall.connect fd (LookupAddress host).2 port] ++ rest)
        ∧ (conn.ret ≠ -1 ∨ conn.errno = EINPROGRESS →
          ∃ rest, (ConnectTCP EINPROGRESS LookupAddress k tr host port ms clientSock).os
            = tr ++ [Syscall.init, Syscall.socket SockType.SOCK_STREAM,
                Syscall.ioctl fd kNonBlockingMode,
                Syscall.connect fd (LookupAddress host).2 port,
                Syscall.select (fd + 1) false true false (toTimeval ms).tv_sec
                  (toTimeval ms).tv_usec] ++ rest)
        ∧ (conn.ret ≠ -1 ∨ conn.errno = EINPROGRESS → sel.ret ≠ -1 → sel.ret ≠ 0 →
          ∃ rest, (ConnectTCP EINPROGRESS LookupAddress k tr host port ms clientSock).os
            = tr ++ [Syscall.init, Syscall.socket SockType.SOCK_STREAM,
                Syscall.ioctl fd kNonBlockingMode,
                Syscall.connect fd (LookupAddress host).2 port,
                Syscall.select (fd + 1) false true false (toTimeval ms).tv_sec
                  (toTimeval ms).tv_usec,
                Syscall.getsockopt fd SockOpt.SO_ERROR] ++ rest)) := by
  have hok : (conn.ret ≠ -1 ∨ conn.errno = EINPROGRESS)
      ↔ ¬ (conn.ret = -1 ∧ conn.errno ≠ EINPROGRESS) := by
    constructor
    · rintro (h | h) ⟨h1, h2⟩
      · exact h h1
      · exact h2 h
    · intro h
      by_cases h1 : conn.ret = -1
      · right
        by_contra h2
        exact h ⟨h1, h2⟩
      · left; exact h1
  have hsel2 : k (tr.length + 4) (selectCall fd false true false ms) = sel := hsel
  cases clientSock with
  | none =>
    refine ⟨?_, ?_, ?_, ?_, ?_⟩
    · simp [ConnectTCP]
    · intro _; rfl
    · intro h; exact absurd rfl h
    · intro h; exact absurd rfl h
    · intro h; exact absurd rfl h
  | some cell =>
    by_cases hres : (LookupAddress host).1 = error.nil
    · by_cases hfd : fd = -1
      · have hfd2 : (k (tr.length + 1) (Syscall.socket SockType.SOCK_STREAM)).ret = -1 := by
          rw [hsock]; exact hfd
        rw [ConnectTCP_eq_socket_failure EINPROGRESS LookupAddress k tr host port ms cell hres
          hfd2]
        refine ⟨?_, ?_, ?_, ?_, ?_⟩
        · simp [hfd]
        · intro h; simp at h
        · intro _ h; exact absurd hres h
        · intro _ _ _; rfl
        · intro _ _ h; exact absurd hfd h
      · have hpair : LookupAddress host = (error.nil, (LookupAddress host).2) := by
          rw [← hres]
        rw [ConnectTCP_eq_nonBlocking EINPROGRESS LookupAddress k tr host (LookupAddress host).2
          port ms cell fd hms hpair hsock hfd, hconn, hsel2, hgso]
        refine ⟨?_, ?_, ?_, ?_, ?_⟩
        · rw [hok]
          split_ifs with a b c d
          · simp [a]
          · simp [a, b]
          · simp [a, b, c]
          · simp [a, b, c, d]
          · simp only [ne_eq, not_not] at d
            simp [a, b, c, d, hres, hfd]
        · intro h; simp at h
        · intro _ h; exact absurd hres h
        · intro _ _ h; exact absurd h hfd
        · intro _ _ _
          refine ⟨?_, ?_, ?_, ?_, ?_, ?_, ?_⟩
          · intro h1 h2
            rw [if_pos ⟨h1, h2⟩]
          · intro h1 h2
            rw [if_neg (hok.mp h1), if_pos h2]
          · intro h1 h2
            rw [if_neg (hok.mp h1), if_neg (by omega), if_pos h2]
          · intro h1 h2 h3 h4
            rw [if_neg (hok.mp h1), if_neg h2, if_neg h3, if_pos h4]
          · split_ifs
            · exact ⟨[Syscall.close fd], by simp⟩
            · exact ⟨[selectCall fd false true false ms, Syscall.close fd], by simp⟩
            · exact ⟨[selectCall fd false true false ms, Syscall.close fd], by simp⟩
            · exact ⟨[selectCall fd false true false ms,
                Syscall.getsockopt fd SockOpt.SO_ERROR, Syscall.close fd], by simp⟩
            · exact ⟨[selectCall fd false true false ms,
                Syscall.getsockopt fd SockOpt.SO_ERROR, Syscall.ioctl fd kBlockingMode]
                ++ closeCalls (cell.map (fun h => (h.m_closed, h.m_fd))), by simp⟩
          · intro h1
            rw [if_neg (hok.mp h1)]
            split_ifs
            · exact ⟨[Syscall.close fd], by simp [selectCall]⟩
            · exact ⟨[Syscall.close fd], by simp [selectCall]⟩
            · exact ⟨[Syscall.getsockopt fd SockOpt.SO_ERROR, Syscall.close fd],
                by simp [selectCall]⟩
            · exact ⟨[Syscall.getsockopt fd SockOpt.SO_ERROR, Syscall.ioctl fd kBlockingMode]
                ++ closeCalls (cell.map (fun h => (h.m_closed, h.m_fd))),
                by simp [selectCall]⟩
          · intro h1 h2 h3
            rw [if_neg (hok.mp h1), if_neg h2, if_neg h3]
            split_ifs
            · exact ⟨[Syscall.close fd], by simp [selectCall]⟩
            · exact ⟨[Syscall.ioctl fd kBlockingMode]
                ++ closeCalls (cell.map (fun h => (h.m_closed, h.m_fd))),
                by simp [selectCall]⟩
    · rw [ConnectTCP_eq_resolver_failure EINPROGRESS LookupAddress k tr host port ms cell hres]
      refine ⟨?_, ?_, ?_, ?_, ?_⟩
      · simp [hres]
      · intro h; simp at h
      · intro _ _; rfl
      · intro _ h; exact absurd h hres
      · intro _ h; exact absurd h hres

/-- Witness of C12: `connect` reports `EINPROGRESS` (115), `select` reports
one event, and the socket error read is `ECONNREFUSED` (111). -/
theorem ConnectTCP_timeout_outcomes_witness :
    (ConnectTCP 115 (fun _ => (error.nil, "10.0.0.1"))
        (listKernel [⟨0, 0, [], "", 0, 0⟩, ⟨3, 0, [], "", 0, 0⟩, ⟨0, 0, [], "", 0, 0⟩,
          ⟨-1, 115, [], "", 0, 0⟩, ⟨1, 0, [], "", 0, 0⟩, ⟨0, 0, [], "", 0, 111⟩])
        [] "example.org" 80 2000 (some none)).err = error.os 111 :=
  ((ConnectTCP_timeout_outcomes 115 (fun _ => (error.nil, "10.0.0.1"))
    (listKernel [⟨0, 0, [], "", 0, 0⟩, ⟨3, 0, [], "", 0, 0⟩, ⟨0, 0, [], "", 0, 0⟩,
      ⟨-1, 115, [], "", 0, 0⟩, ⟨1, 0, [], "", 0, 0⟩, ⟨0, 0, [], "", 0, 111⟩])
    [] "example.org" 80 2000 (some none) 3
    ⟨-1, 115, [], "", 0, 0⟩ ⟨1, 0, [], "", 0, 0⟩ ⟨0, 0, [], "", 0, 111⟩
    (by decide) rfl rfl rfl rfl).2.2.2.2 (by decide) rfl (by decide)).2.2.2.1
    (Or.inr rfl) (by decide) (by decide) (by decide)

/-- Examples of C12 by evaluation: with a timeout of 2000 ms, a connect that
completes returns `nil`; a failing `socket` and a `select` reporting no event
do not. -/
theorem ConnectTCP_timeout_examples :
    (ConnectTCP 115 (fun _ => (error.nil, "10.0.0.1"))
        (listKernel [⟨0, 0, [], "", 0, 0⟩, ⟨3, 0, [], "", 0, 0⟩, ⟨0, 0, [], "", 0, 0⟩,
          ⟨-1, 115, [], "", 0, 0⟩, ⟨1, 0, [], "", 0, 0⟩, ⟨0, 0, [], "", 0, 0⟩])
        [] "example.org" 80 2000 (some none))
      = ⟨error.nil, (), [Syscall.init, Syscall.socket SockType.SOCK_STREAM, Syscall.ioctl 3 1,
          Syscall.connect 3 "10.0.0.1" 80, Syscall.select 4 false true false 2 0,
          Syscall.getsockopt 3 SockOpt.SO_ERROR, Syscall.ioctl 3 0],
          some (some ⟨3, "10.0.0.1", 80, false, 0⟩)⟩
    ∧ (ConnectTCP 115 (fun _ => (error.nil, "10.0.0.1"))
        (listKernel [⟨0, 0, [], "", 0, 0⟩, ⟨-1, 24, [], "", 0, 0⟩])
        [] "example.org" 80 2000 (some none))
      = ⟨error.os 24, (), [Syscall.init, Syscall.socket SockType.SOCK_STREAM], some none⟩
    ∧ (ConnectTCP 115 (fun _ => (error.nil, "10.0.0.1"))
        (listKernel [⟨0, 0, [], "", 0, 0⟩, ⟨3, 0, [], "", 0, 0⟩, ⟨0, 0, [], "", 0, 0⟩,
          ⟨-1, 115, [], "", 0, 0⟩, ⟨0, 0, [], "", 0, 0⟩])
        [] "example.org" 80 2000 (some none))
      = ⟨error.timedout, (), [Syscall.init, Syscall.socket SockType.SOCK_STREAM,
          Syscall.ioctl 3 1, Syscall.connect 3 "10.0.0.1" 80,
          Syscall.select 4 false true false 2 0, Syscall.close 3], some none⟩ := by
  decide

/-- Whenever the blocking branch of `ConnectTCP` returns `nil`, the output
cell holds a new handle on `fd` with the address and port given; otherwise
the cell is as it was. -/
theorem ConnectTCP.blocking_out (k : Kernel) (tr : List Syscall) (fd : Int) (ip : String)
    (port : Nat) (cell : Option TCPSocket) :
    ((ConnectTCP.blocking k tr fd ip port cell).err = error.nil →
        (ConnectTCP.blocking k tr fd ip port cell).out = some (some (TCPSocket.new fd ip port)))
    ∧ ((ConnectTCP.blocking k tr fd ip port cell).err ≠ error.nil →
        (ConnectTCP.blocking k tr fd ip port cell).out = some cell) := by
  rw [ConnectTCP.blocking_eq]
  split_ifs <;> simp

/-- Whenever the non-blocking branch of `ConnectTCP` returns `nil`, the output
cell holds a new handle on `fd` with the address and port given; otherwise
the cell is as it was. -/
theorem ConnectTCP.nonBlocking_out (EINPROGRESS : Int) (k : Kernel) (tr : List Syscall)
    (fd : Int) (ip : String) (port : Nat) (ms : Int) (cell : Option TCPSocket) :
    ((ConnectTCP.nonBlocking EINPROGRESS k tr fd ip port ms cell).err = error.nil →
        (ConnectTCP.nonBlocking EINPROGRESS k tr fd ip port ms cell).out
          = some (some (TCPSocket.new fd ip port)))
    ∧ ((ConnectTCP.nonBlocking EINPROGRESS k tr fd ip port ms cell).err ≠ error.nil →
        (ConnectTCP.nonBlocking EINPROGRESS k tr fd ip port ms cell).out = some cell) := by
  rw [ConnectTCP.nonBlocking_eq]
  split_ifs <;> simp

/-- C15: whenever `ConnectTCP` returns `nil`, in the blocking and in the
non-blocking branch, the output cell holds a handle whose remote address is
the string the resolver produced for `host` and whose remote port is the
`port` argument; and when the resolver fails, `ConnectTCP` returns the
resolver's error, has called `internal::init()` only (no `socket` call), and
leaves the output cell as it was. -/
theorem ConnectTCP_records_target (EINPROGRESS : Int) (LookupAddress : String → error × String)
    (k : Kernel) (tr : List Syscall) (host : String) (port : Nat) (ms : Int)
    (cell : Option TCPSocket) :
    ((ConnectTCP EINPROGRESS LookupAddress k tr host port ms (some cell)).err = error.nil →
        ∃ h, (ConnectTCP EINPROGRESS LookupAddress k tr host port ms (some cell)).out
            = some (some h)
          ∧ h.m_remoteAddr = (LookupAddress host).2 ∧ h.m_remotePort = port)
    ∧ ((LookupAddress host).1 ≠ error.nil →
        ConnectTCP EINPROGRESS LookupAddress k tr host port ms (some cell)
          = ⟨(LookupAddress host).1, (), tr ++ [Syscall.init], some cell⟩) := by
  constructor
  · intro hnil
    by_cases hres : (LookupAddress host).1 = error.nil
    · by_cases hfd : (k (tr.length + 1) (Syscall.socket SockType.SOCK_STREAM)).ret = -1
      · simp [ConnectTCP, hres, hfd] at hnil
      · rw [ConnectTCP_eq_branch EINPROGRESS LookupAddress k tr host port ms cell hres hfd]
          at hnil ⊢
        by_cases hms : ms ≤ 0
        · rw [if_pos hms] at hnil ⊢
          exact ⟨_, (ConnectTCP.blocking_out k _ _ _ port cell).1 hnil, rfl, rfl⟩
        · rw [if_neg hms] at hnil ⊢
          exact ⟨_, (ConnectTCP.nonBlocking_out EINPROGRESS k _ _ _ port ms cell).1 hnil,
            rfl, rfl⟩
    · simp [ConnectTCP, hres] at hnil
  · intro hres
    simp [ConnectTCP, hres]

/-- Example of C15: a blocking connect that succeeds records the resolved
address and the port. -/
theorem ConnectTCP_records_target_witness :
    ∃ h, (ConnectTCP 115 (fun _ => (error.nil, "10.0.0.1")) acceptingKernel [] "example.org" 80
        0 (some none)).out = some (some h)
      ∧ h.m_remoteAddr = "10.0.0.1" ∧ h.m_remotePort = 80 :=
  (ConnectTCP_records_target 115 (fun _ => (error.nil, "10.0.0.1")) acceptingKernel []
    "example.org" 80 0 none).1 (by decide)

/-- A destructor does not close `fd` when the handle destroyed is closed or
is on another descriptor. -/
theorem closeCalls_count_zero (held : Option (Bool × Int)) (fd : Int)
    (h : ∀ c d, held = some (c, d) → c = true ∨ d ≠ fd) :
    (closeCalls held).count (Syscall.close fd) = 0 := by
  cases held with
  | none => simp [closeCalls]
  | some p =>
    obtain ⟨c, d⟩ := p
    cases c with
    | true => simp [closeCalls]
    | false =>
      rcases h false d rfl with h1 | h1
      · exact absurd h1 (by decide)
      · show List.count (Syscall.close fd) [Syscall.close d] = 0
        rw [List.count_singleton, if_neg]
        simpa using h1

/-- A destructor closes `fd` once when the handle destroyed is open on it. -/
theorem closeCalls_count_one (fd : Int) :
    (closeCalls (some (false, fd))).count (Syscall.close fd) = 1 := by
  simp [closeCalls]

/-- The calls made after `tr`, when they end with those of a destructor. -/
theorem count_close_after (tr pre : List Syscall) (held : Option (Bool × Int)) (fd : Int)
    (hpre : pre.count (Syscall.close fd) = 0) :
    ((tr ++ pre ++ closeCalls held).drop tr.length).count (Syscall.close fd)
      = (closeCalls held).count (Syscall.close fd) := by
  rw [List.append_assoc, List.drop_left, List.count_append, hpre, Nat.zero_add]

/-- C13, as the code has it.  In every execution of `ConnectTCP` and
`ListenTCP` (tcp_unix.cpp) and of `ListenUDP` (udp_windows.cpp) in which the
socket was created: if the function returns an error, the OS close was
called exactly once on the descriptor, as the last call, and the output cell
is as it was; if it returns `nil`, the output cell holds one new, open handle
on the descriptor, and the OS close was not called on the descriptor unless
the output cell was the last owner of an open handle with that same
descriptor number, in which case destroying that handle closes it once. -/
theorem no_descriptor_leak (EINPROGRESS : Int) (LookupAddress : String → error × String)
    (k : Kernel) (tr : List Syscall) (host ip : String) (port : Nat) (ms : Int)
    (cs : Option TCPSocket) (cl : Option TCPListener) (cu : Option UDPSocket) (fd fdu : Int)
    (hres : LookupAddress host = (error.nil, ip))
    (hs : (k (tr.length + 1) (Syscall.socket SockType.SOCK_STREAM)).ret = fd) (hfd : fd ≠ -1)
    (hu : (k (tr.length + 1) (Syscall.socket SockType.SOCK_DGRAM)).ret = fdu)
    (hfdu : fdu ≠ -1) :
    (((ConnectTCP EINPROGRESS LookupAddress k tr host port ms (some cs)).err ≠ error.nil →
        (ConnectTCP EINPROGRESS LookupAddress k tr host port ms (some cs)).out = some cs
        ∧ ((ConnectTCP EINPROGRESS LookupAddress k tr host port ms (some cs)).os.drop
            tr.length).count (Syscall.close fd) = 1
        ∧ (ConnectTCP EINPROGRESS LookupAddress k tr host port ms (some cs)).os.getLast?
            = some (Syscall.close fd))
      ∧ ((ConnectTCP EINPROGRESS LookupAddress k tr host port ms (some cs)).err = error.nil →
        (∃ h, (ConnectTCP EINPROGRESS LookupAddress k tr host port ms (some cs)).out
              = some (some h) ∧ h.m_fd = fd ∧ h.m_closed = false)
        ∧ ((∀ h, cs = some h → h.m_closed = true ∨ h.m_fd ≠ fd) →
            ((ConnectTCP EINPROGRESS LookupAddress k tr host port ms (some cs)).os.drop
              tr.length).count (Syscall.close fd) = 0)
        ∧ (∀ h, cs = some h → h.m_closed = false → h.m_fd = fd →
            ((ConnectTCP EINPROGRESS LookupAddress k tr host port ms (some cs)).os.drop
              tr.length).count (Syscall.close fd) = 1)))
    ∧ (((ListenTCP k tr port (some cl)).err ≠ error.nil →
        (ListenTCP k tr port (some cl)).out = some cl
        ∧ ((ListenTCP k tr port (some cl)).os.drop tr.length).count (Syscall.close fd) = 1
        ∧ (ListenTCP k tr port (some cl)).os.getLast? = some (Syscall.close fd))
      ∧ ((ListenTCP k tr port (some cl)).err = error.nil →
        (∃ h, (ListenTCP k tr port (some cl)).out = some (some h)
            ∧ h.m_fd = fd ∧ h.m_closed = false)
        ∧ ((∀ h, cl = some h → h.m_closed = true ∨ h.m_fd ≠ fd) →
            ((ListenTCP k tr port (some cl)).os.drop tr.length).count (Syscall.close fd) = 0)
        ∧ (∀ h, cl = some h → h.m_closed = false → h.m_fd = fd →
            ((ListenTCP k tr port (some cl)).os.drop tr.length).count (Syscall.close fd)
              = 1)))
    ∧ (((ListenUDP k tr port (some cu)).err ≠ error.nil →
        (ListenUDP k tr port (some cu)).out = some cu
        ∧ ((ListenUDP k tr port (some cu)).os.drop tr.length).count (Syscall.close fdu) = 1
        ∧ (ListenUDP k tr port (some cu)).os.getLast? = some (Syscall.close fdu))
      ∧ ((ListenUDP k tr port (some cu)).err = error.nil →
        (∃ h, (ListenUDP k tr port (some cu)).out = some (some h)
            ∧ h.m_fd = fdu ∧ h.m_closed = false)
        ∧ ((∀ h, cu = some h → h.m_closed = true ∨ h.m_fd ≠ fdu) →
            ((ListenUDP k tr port (some cu)).os.drop tr.length).count (Syscall.close fdu) = 0)
        ∧ (∀ h, cu = some h → h.m_closed = false → h.m_fd = fdu →
            ((ListenUDP k tr port (some cu)).os.drop tr.length).count (Syscall.close fdu)
              = 1))) := by
  have hzs : (∀ h, cs = some h → h.m_closed = true ∨ h.m_fd ≠ fd) →
      (closeCalls (cs.map (fun h => (h.m_closed, h.m_fd)))).count (Syscall.close fd) = 0 := by
    intro h
    apply closeCalls_count_zero
    intro c d hcd
    cases cs with
    | none => simp at hcd
    | some x =>
      simp only [Option.map_some', Option.some.injEq, Prod.mk.injEq] at hcd
      rw [← hcd.1, ← hcd.2]
      exact h x rfl
  have hos : ∀ h, cs = some h → h.m_closed = false → h.m_fd = fd →
      (closeCalls (cs.map (fun h => (h.m_closed, h.m_fd)))).count (Syscall.close fd) = 1 := by
    intro h hc h1 h2
    rw [hc, Option.map_some', h1, h2]
    exact closeCalls_count_one fd
  have hzl : (∀ h, cl = some h → h.m_closed = true ∨ h.m_fd ≠ fd) →
      (closeCalls (cl.map (fun h => (h.m_closed, h.m_fd)))).count (Syscall.close fd) = 0 := by
    intro h
    apply closeCalls_count_zero
    intro c d hcd
    cases cl with
    | none => simp at hcd
    | some x =>
      simp only [Option.map_some', Option.some.injEq, Prod.mk.injEq] at hcd
      rw [← hcd.1, ← hcd.2]
      exact h x rfl
  have hol : ∀ h, cl = some h → h.m_closed = false → h.m_fd = fd →
      (closeCalls (cl.map (fun h => (h.m_closed, h.m_fd)))).count (Syscall.close fd) = 1 := by
    intro h hc h1 h2
    rw [hc, Option.map_some', h1, h2]
    exact closeCalls_count_one fd
  have hzu : (∀ h, cu = some h → h.m_closed = true ∨ h.m_fd ≠ fdu) →
      (closeCalls (cu.map (fun h => (h.m_closed, h.m_fd)))).count (Syscall.close fdu) = 0 := by
    intro h
    apply closeCalls_count_zero
    intro c d hcd
    cases cu with
    | none => simp at hcd
    | some x =>
      simp only [Option.map_some', Option.some.injEq, Prod.mk.injEq] at hcd
      rw [← hcd.1, ← hcd.2]
      exact h x rfl
  have hou : ∀ h, cu = some h → h.m_closed = false → h.m_fd = fdu →
      (closeCalls (cu.map (fun h => (h.m_closed, h.m_fd)))).count (Syscall.close fdu) = 1 := by
    intro h hc h1 h2
    rw [hc, Option.map_some', h1, h2]
    exact closeCalls_count_one fdu
  refine ⟨?_, ?_, ?_⟩
  · by_cases hms : ms ≤ 0
    · rw [ConnectTCP_eq_blocking EINPROGRESS LookupAddress k tr host ip port ms cs fd hms hres
        hs hfd]
      split_ifs
      · simp [List.getLast?_append]
      · refine ⟨fun h => absurd rfl h, fun _ => ⟨⟨_, rfl, rfl, rfl⟩, ?_, ?_⟩⟩
        · intro h
          rw [count_close_after _ _ _ _ (by simp)]
          exact hzs h
        · intro h hc h1 h2
          rw [count_close_after _ _ _ _ (by simp)]
          exact hos h hc h1 h2
    · rw [ConnectTCP_eq_nonBlocking EINPROGRESS LookupAddress k tr host ip port ms cs fd
        (by omega) hres hs hfd]
      split_ifs
      · simp [List.getLast?_append]
      · simp [selectCall, List.getLast?_append]
      · simp [selectCall, List.getLast?_append]
      · simp [selectCall, List.getLast?_append]
      · refine ⟨fun h => absurd rfl h, fun _ => ⟨⟨_, rfl, rfl, rfl⟩, ?_, ?_⟩⟩
        · intro h
          rw [count_close_after _ _ _ _ (by simp [selectCall])]
          exact hzs h
        · intro h hc h1 h2
          rw [count_close_after _ _ _ _ (by simp [selectCall])]
          exact hos h hc h1 h2
  · simp only [ListenTCP, TCPListener_destroy_eq, List.length_append, List.length_singleton,
      hs, if_neg hfd, List.append_assoc, List.singleton_append, List.cons_append,
      List.nil_append]
    split_ifs
    · simp [List.getLast?_append]
    · simp [List.getLast?_append]
    · simp [List.getLast?_append]
    · refine ⟨fun h => absurd rfl h, fun _ => ⟨⟨_, rfl, rfl, rfl⟩, ?_, ?_⟩⟩
      · intro h
        have := count_close_after tr [Syscall.init, Syscall.socket SockType.SOCK_STREAM,
          Syscall.setsockopt fd SockOpt.SO_REUSEADDR [1], Syscall.bind fd port,
          Syscall.listen fd] (cl.map (fun h => (h.m_closed, h.m_fd))) fd (by simp)
        simp only [List.append_assoc, List.cons_append, List.nil_append] at this
        rw [this]
        exact hzl h
      · intro h hc h1 h2
        have := count_close_after tr [Syscall.init, Syscall.socket SockType.SOCK_STREAM,
          Syscall.setsockopt fd SockOpt.SO_REUSEADDR [1], Syscall.bind fd port,
          Syscall.listen fd] (cl.map (fun h => (h.m_closed, h.m_fd))) fd (by simp)
        simp only [List.append_assoc, List.cons_append, List.nil_append] at this
        rw [this]
        exact hol h hc h1 h2
  · simp only [ListenUDP, UDPSocket_destroy_eq, List.length_append, List.length_singleton,
      hu, if_neg hfdu, List.append_assoc, List.singleton_append, List.cons_append,
      List.nil_append]
    split_ifs
    · simp [List.getLast?_append]
    · refine ⟨fun h => absurd rfl h, fun _ => ⟨⟨_, rfl, rfl, rfl⟩, ?_, ?_⟩⟩
      · intro h
        have := count_close_after tr [Syscall.init, Syscall.socket SockType.SOCK_DGRAM,
          Syscall.bind fdu port] (cu.map (fun h => (h.m_closed, h.m_fd))) fdu (by simp)
        simp only [List.append_assoc, List.cons_append, List.nil_append] at this
        rw [this]
        exact hzu h
      · intro h hc h1 h2
        have := count_close_after tr [Syscall.init, Syscall.socket SockType.SOCK_DGRAM,
          Syscall.bind fdu port] (cu.map (fun h => (h.m_closed, h.m_fd))) fdu (by simp)
        simp only [List.append_assoc, List.cons_append, List.nil_append] at this
        rw [this]
        exact hou h hc h1 h2

/-- Witness of C13 as the code has it: over an operating system that creates
descriptor 3 and then fails every call, `ListenTCP` closes the descriptor
once and leaves the output cell empty. -/
theorem no_descriptor_leak_witness :
    (ListenTCP (listKernel [⟨0, 0, [], "", 0, 0⟩, ⟨3, 0, [], "", 0, 0⟩, ⟨-1, 98, [], "", 0, 0⟩])
        [] 8080 (some none)).out = some none
    ∧ ((ListenTCP (listKernel [⟨0, 0, [], "", 0, 0⟩, ⟨3, 0, [], "", 0, 0⟩,
          ⟨-1, 98, [], "", 0, 0⟩]) [] 8080 (some none)).os.drop
        ([] : List Syscall).length).count (Syscall.close 3) = 1
    ∧ (ListenTCP (listKernel [⟨0, 0, [], "", 0, 0⟩, ⟨3, 0, [], "", 0, 0⟩, ⟨-1, 98, [], "", 0, 0⟩])
        [] 8080 (some none)).os.getLast? = some (Syscall.close 3) :=
  (no_descriptor_leak 115 (fun _ => (error.nil, "10.0.0.1"))
    (listKernel [⟨0, 0, [], "", 0, 0⟩, ⟨3, 0, [], "", 0, 0⟩, ⟨-1, 98, [], "", 0, 0⟩])
    [] "example.org" "10.0.0.1" 8080 0 none none none 3 3 rfl rfl (by decide) rfl
    (by decide)).2.1.1 (by decide)

/-- Counterexample to C13 as stated: the output cell is the last owner of an
open handle on descriptor 3, a descriptor the operating system has released
and hands out again.  `ConnectTCP` creates the socket on descriptor 3,
connects and returns `nil`; assigning the new handle destroys the old one,
whose destructor closes descriptor 3: the descriptor the returned handle owns
has been closed. -/
theorem no_descriptor_leak_counterexample :
    ConnectTCP 115 (fun _ => (error.nil, "10.0.0.1"))
        (listKernel [⟨0, 0, [], "", 0, 0⟩, ⟨3, 0, [], "", 0, 0⟩])
        [] "example.org" 80 0 (some (some ⟨3, "10.0.0.9", 80, false, 0⟩))
      = ⟨error.nil, (), [Syscall.init, Syscall.socket SockType.SOCK_STREAM,
          Syscall.connect 3 "10.0.0.1" 80, Syscall.close 3],
          some (some ⟨3, "10.0.0.1", 80, false, 0⟩)⟩
    ∧ ((ConnectTCP 115 (fun _ => (error.nil, "10.0.0.1"))
        (listKernel [⟨0, 0, [], "", 0, 0⟩, ⟨3, 0, [], "", 0, 0⟩])
        [] "example.org" 80 0 (some (some ⟨3, "10.0.0.9", 80, false, 0⟩))).os.drop
          ([] : List Syscall).length).count (Syscall.close 3) = 1 := by
  decide

/-! ## Termination and bounds of `ReadFull` and `WriteFull` -/

/-- Dropping the record from `ReadFullLoopLog` gives `ReadFullLoop`. -/
theorem ReadFullLoopLog_erase {σ : Type} (R : Reader σ) (len : Nat) :
    ∀ (fuel : Nat) (s : σ) (buf : Buf) (offset : Nat),
      (ReadFullLoopLog R len fuel s buf offset).map Prod.fst
        = ReadFullLoop R len fuel s buf offset := by
  intro fuel
  induction fuel with
  | zero => intro s buf offset; rfl
  | succ fuel ih =>
    intro s buf offset
    simp only [ReadFullLoopLog, ReadFullLoop]
    split_ifs
    · rfl
    · rfl
    · rw [Option.map_map, ← ih]
      rfl

/-- Dropping the record from `WriteFullLoopLog` gives `WriteFullLoop`. -/
theorem WriteFullLoopLog_erase {σ : Type} (W : Writer σ) (buf : Buf) (len : Nat) :
    ∀ (fuel : Nat) (s : σ) (offset : Nat),
      (WriteFullLoopLog W buf len fuel s offset).map Prod.fst
        = WriteFullLoop W buf len fuel s offset := by
  intro fuel
  induction fuel with
  | zero => intro s offset; rfl
  | succ fuel ih =>
    intro s offset
    simp only [WriteFullLoopLog, WriteFullLoop]
    split_ifs
    · rfl
    · rfl
    · rw [Option.map_map, ← ih]
      rfl

theorem LoopRecordOk_single (len off next : Nat) (h1 : off < len) (h2 : off ≤ next)
    (h3 : next ≤ len) : LoopRecordOk len off [⟨off, len - off, next⟩] := by
  refine ⟨?_, ⟨_, _, rfl, rfl⟩, ?_, List.chain'_singleton _⟩
  · simp only [List.length_singleton]
    omega
  · intro c hc
    rw [List.mem_singleton.mp hc]
    exact ⟨h1, rfl, h2, h3⟩

theorem LoopRecordOk_cons (len off n : Nat) (log : List LoopCall) (h1 : off < len)
    (hn : 1 ≤ n) (h2 : off + n < len) (h : LoopRecordOk len (off + n) log) :
    LoopRecordOk len off (⟨off, len - off, off + n⟩ :: log) := by
  obtain ⟨hl, ⟨c, rest, hc, hco⟩, hall, hchain⟩ := h
  refine ⟨?_, ⟨_, _, rfl, rfl⟩, ?_, ?_⟩
  · simp only [List.length_cons]
    omega
  · intro d hd
    rcases List.mem_cons.mp hd with h | h
    · rw [h]
      exact ⟨h1, rfl, by simp, by simp; omega⟩
    · exact hall d h
  · rw [hc]
    rw [hc] at hchain
    exact List.Chain'.cons ⟨by simp; omega, by simp [hco]⟩ hchain

/-- Loop invariant of `ReadFullLoopLog` for a reader whose successful reads
deliver between 1 and the requested number of bytes. -/
theorem ReadFullLoopLog_ok {σ : Type} (R : Reader σ) (len : Nat) (hlen : len < SIZE_MOD)
    (hR : ∀ s req, 1 ≤ req → (R.Read s req).err = error.nil →
      1 ≤ (R.Read s req).data.length ∧ (R.Read s req).data.length ≤ req) :
    ∀ (fuel off : Nat) (s : σ) (buf : Buf), off < len → len - off ≤ fuel →
      ∃ r log b, ReadFullLoopLog R len fuel s buf off = some (r, log)
        ∧ LoopRecordOk len off log
        ∧ (r.err = error.nil → ∀ c ∈ log, c.offset < c.next)
        ∧ r.buf = some b
        ∧ (r.err = error.nil ∨ (∀ s req, (R.Read s req).data.length ≤ req) →
            ∀ i, len ≤ i → b i = buf i) := by
  intro fuel
  induction fuel with
  | zero => intro off s buf h1 h2; omega
  | succ fuel ih =>
    intro off s buf hoff hfuel
    have hreq : size_sub len off = len - off := size_sub_eq (by omega) hlen
    by_cases hne : (R.Read s (len - off)).err ≠ error.nil
    · refine ⟨⟨(R.Read s (len - off)).err, (R.Read s (len - off)).st,
          some (buf.store off (R.Read s (len - off)).data)⟩, [⟨off, len - off, off⟩], _, ?_,
        LoopRecordOk_single len off off hoff (le_refl _) (by omega), ?_, rfl, ?_⟩
      · simp only [ReadFullLoopLog, hreq, if_pos hne]
      · intro h; exact absurd h hne
      · intro h i hi
        rcases h with h | h
        · exact absurd h hne
        · have := h s (len - off)
          exact store_outside buf off _ i (by omega)
    · have hnil : (R.Read s (len - off)).err = error.nil := by
        by_contra h; exact hne h
      obtain ⟨hn1, hn2⟩ := hR s (len - off) (by omega) hnil
      generalize hn : (R.Read s (len - off)).data.length = n at hn1 hn2
      have hadd : size_add off n = off + n := size_add_eq (by omega)
      have hkeep : ∀ i, len ≤ i → (buf.store off (R.Read s (len - off)).data) i = buf i :=
        fun i hi => store_outside buf off _ i (by omega)
      by_cases hdone : len ≤ off + n
      · refine ⟨⟨error.nil, (R.Read s (len - off)).st,
            some (buf.store off (R.Read s (len - off)).data)⟩, [⟨off, len - off, off + n⟩], _,
          ?_, LoopRecordOk_single len off (off + n) hoff (by omega) (by omega), ?_, rfl,
          fun _ => hkeep⟩
        · simp only [ReadFullLoopLog, hreq, if_neg hne, hn, hadd, ge_iff_le, if_pos hdone]
        · intro _ c hc
          rw [List.mem_singleton.mp hc]
          show off < off + n
          omega
      · obtain ⟨r, log, b, hrun, hok, hinc, hb, hbuf⟩ := ih (off + n) (R.Read s (len - off)).st
          (buf.store off (R.Read s (len - off)).data) (by omega) (by omega)
        refine ⟨r, ⟨off, len - off, off + n⟩ :: log, b, ?_,
          LoopRecordOk_cons len off n log hoff hn1 (by omega) hok, ?_, hb, ?_⟩
        · simp only [ReadFullLoopLog, hreq, if_neg hne, hn, hadd, ge_iff_le, if_neg hdone,
            hrun, Option.map_some']
        · intro hr c hc
          rcases List.mem_cons.mp hc with h | h
          · rw [h]
            show off < off + n
            omega
          · exact hinc hr c h
        · intro h i hi
          rw [hbuf h i hi]
          exact hkeep i hi

/-- Loop invariant of `WriteFullLoopLog` for a writer whose successful writes
accept between 1 and the offered number of bytes. -/
theorem WriteFullLoopLog_ok {σ : Type} (W : Writer σ) (buf : Buf) (len : Nat)
    (hlen : len < SIZE_MOD)
    (hW : ∀ s bytes, 1 ≤ bytes.length → (W.Write s bytes).err = error.nil →
      1 ≤ (W.Write s bytes).nbytes ∧ (W.Write s bytes).nbytes ≤ bytes.length) :
    ∀ (fuel off : Nat) (s : σ), off < len → len - off ≤ fuel →
      ∃ r log, WriteFullLoopLog W buf len fuel s off = some (r, log)
        ∧ LoopRecordOk len off log
        ∧ (r.err = error.nil → ∀ c ∈ log, c.offset < c.next) := by
  intro fuel
  induction fuel with
  | zero => intro off s h1 h2; omega
  | succ fuel ih =>
    intro off s hoff hfuel
    have hreq : size_sub len off = len - off := size_sub_eq (by omega) hlen
    by_cases hne : (W.Write s (buf.load off (len - off))).err ≠ error.nil
    · refine ⟨⟨(W.Write s (buf.load off (len - off))).err,
          (W.Write s (buf.load off (len - off))).st⟩, [⟨off, len - off, off⟩], ?_,
        LoopRecordOk_single len off off hoff (le_refl _) (by omega), ?_⟩
      · simp only [WriteFullLoopLog, hreq, if_pos hne]
      · intro h; exact absurd h hne
    · have hnil : (W.Write s (buf.load off (len - off))).err = error.nil := by
        by_contra h; exact hne h
      obtain ⟨hn1, hn2⟩ := hW s (buf.load off (len - off))
        (by rw [load_length]; omega) hnil
      rw [load_length] at hn2
      generalize hn : (W.Write s (buf.load off (len - off))).nbytes = n at hn1 hn2
      have hadd : size_add off n = off + n := size_add_eq (by omega)
      by_cases hdone : len ≤ off + n
      · refine ⟨⟨error.nil, (W.Write s (buf.load off (len - off))).st⟩,
          [⟨off, len - off, off + n⟩], ?_,
          LoopRecordOk_single len off (off + n) hoff (by omega) (by omega), ?_⟩
        · simp only [WriteFullLoopLog, hreq, if_neg hne, hn, hadd, ge_iff_le, if_pos hdone]
        · intro _ c hc
          rw [List.mem_singleton.mp hc]
          show off < off + n
          omega
      · obtain ⟨r, log, hrun, hok, hinc⟩ := ih (off + n)
          (W.Write s (buf.load off (len - off))).st (by omega) (by omega)
        refine ⟨r, ⟨off, len - off, off + n⟩ :: log, ?_,
          LoopRecordOk_cons len off n log hoff hn1 (by omega) hok, ?_⟩
        · simp only [WriteFullLoopLog, hreq, if_neg hne, hn, hadd, ge_iff_le, if_neg hdone,
            hrun, Option.map_some']
        · intro hr c hc
          rcases List.mem_cons.mp hc with h | h
          · rw [h]
            show off < off + n
            omega
          · exact hinc hr c h

/-- C17: `ReadFull` and `WriteFull` terminate and stay in bounds.  For a
reader and a writer whose successful calls transfer between 1 and the
requested number of bytes, and every `len >= 1`: both loops return within
`len` iterations; every call is made at an offset below `len` and asks for
exactly `len - offset` bytes at `&buf[offset]`; the offset never exceeds
`len`; every iteration followed by another one moves the offset up, the next
call starts where it ended, and so does the last iteration when the result is
`nil`; and `ReadFull` leaves the memory at indices `>= len` as it was (when
it returns `nil`, or when no read stores more than it is asked for). -/
theorem full_loops_terminate_in_bounds {σ τ : Type} (R : Reader σ) (W : Writer τ) (s : σ)
    (t : τ) (buf : Buf) (len fuel : Nat) (h1 : 1 ≤ len) (hlen : len < SIZE_MOD)
    (hfuel : len ≤ fuel)
    (hR : ∀ s req, 1 ≤ req → (R.Read s req).err = error.nil →
      1 ≤ (R.Read s req).data.length ∧ (R.Read s req).data.length ≤ req)
    (hW : ∀ s bytes, 1 ≤ bytes.length → (W.Write s bytes).err = error.nil →
      1 ≤ (W.Write s bytes).nbytes ∧ (W.Write s bytes).nbytes ≤ bytes.length) :
    (∃ r log b, ReadFullLoopLog R len fuel s buf 0 = some (r, log)
        ∧ ReadFull R fuel s (some buf) len = some r
        ∧ log.length ≤ len
        ∧ (∀ c ∈ log, c.offset < len ∧ c.req = len - c.offset ∧ c.offset ≤ c.next
            ∧ c.next ≤ len)
        ∧ List.Chain' (fun a b => a.offset < a.next ∧ b.offset = a.next) log
        ∧ (r.err = error.nil → ∀ c ∈ log, c.offset < c.next)
        ∧ r.buf = some b
        ∧ (r.err = error.nil ∨ (∀ s req, (R.Read s req).data.length ≤ req) →
            ∀ i, len ≤ i → b i = buf i))
    ∧ (∃ r log, WriteFullLoopLog W buf len fuel t 0 = some (r, log)
        ∧ WriteFull W fuel t (some buf) len = some r
        ∧ log.length ≤ len
        ∧ (∀ c ∈ log, c.offset < len ∧ c.req = len - c.offset ∧ c.offset ≤ c.next
            ∧ c.next ≤ len)
        ∧ List.Chain' (fun a b => a.offset < a.next ∧ b.offset = a.next) log
        ∧ (r.err = error.nil → ∀ c ∈ log, c.offset < c.next)) := by
  constructor
  · obtain ⟨r, log, b, hrun, ⟨hl, _, hall, hchain⟩, hinc, hb, hbuf⟩ :=
      ReadFullLoopLog_ok R len hlen hR fuel 0 s buf (by omega) (by omega)
    refine ⟨r, log, b, hrun, ?_, by omega, hall, hchain, hinc, hb, hbuf⟩
    show ReadFullLoop R len fuel s buf 0 = some r
    rw [← ReadFullLoopLog_erase, hrun]
    rfl
  · obtain ⟨r, log, hrun, ⟨hl, _, hall, hchain⟩, hinc⟩ :=
      WriteFullLoopLog_ok W buf len hlen hW fuel 0 t (by omega) (by omega)
    refine ⟨r, log, hrun, ?_, by omega, hall, hchain, hinc⟩
    show WriteFullLoop W buf len fuel t 0 = some r
    rw [← WriteFullLoopLog_erase, hrun]
    rfl

/-- Witness of C17: a reader delivering one byte per call and a writer
accepting one byte per call, three bytes to transfer. -/
theorem full_loops_terminate_in_bounds_witness :
    (∃ r log, ReadFullLoopLog (scriptReader (fun _ => (error.nil, [1]))) 3 3 ⟨0⟩ (fun _ => 0) 0
        = some (r, log)
      ∧ ReadFull (scriptReader (fun _ => (error.nil, [1]))) 3 ⟨0⟩ (some (fun _ => 0)) 3 = some r
      ∧ log.length ≤ 3)
    ∧ (∃ r log, WriteFullLoopLog (sinkWriter (fun _ _ => (error.nil, 1))) (fun _ => 0) 3 3 ⟨[]⟩ 0
        = some (r, log)
      ∧ WriteFull (sinkWriter (fun _ _ => (error.nil, 1))) 3 ⟨[]⟩ (some (fun _ => 0)) 3 = some r
      ∧ log.length ≤ 3) :=
  match full_loops_terminate_in_bounds (scriptReader (fun _ => (error.nil, [1])))
    (sinkWriter (fun _ _ => (error.nil, 1))) ⟨0⟩ ⟨[]⟩ (fun _ => 0) 3 3 (by decide) (by decide)
    (by decide) (fun _ _ h _ => ⟨Nat.le_refl 1, h⟩)
    (fun _ _ h _ => ⟨Nat.le_refl 1, h⟩) with
  | ⟨⟨r, log, _, h1, h2, h3, _⟩, ⟨w, wlog, g1, g2, g3, _⟩⟩ =>
    ⟨⟨r, log, h1, h2, h3⟩, ⟨w, wlog, g1, g2, g3⟩⟩

end net
